import Mathlib

/-!
Verification of the cat-anomaly telemetry pipeline.

Shallow embedding, in Lean 4, of the two batch jobs of the repository:

* the Usage Aggregator (`src/UsageStatisticsAggregator.ts`, function
  `processRawLogs`), together with the older variant of the same job found in
  the unnamed source file (`calculateMetrics` / `processRawLogs`);
* the Anomaly Detector (`src/index.ts`, functions `createAnomalyIfNotExists`
  and `checkForAnomalies`).

Modelling conventions:

* JavaScript numbers are modelled as exact rationals (`ℚ`); the geofence rule,
  which uses transcendental functions (`Math.sin`, `Math.cos`, `Math.atan2`,
  `Math.sqrt`), is modelled over `ℝ` with the corresponding real functions.
* The dynamically typed `value` column (JSONB) is modelled as a sum type over
  the seven event kinds; `eventType` is the tag of that value.  A field access
  such as `(l.value as any).status` on a non-`ENGINE_STATUS` value yields
  `undefined` in JavaScript and is modelled by an `Option`-valued projection.
* The store is modelled as lists of rows; Prisma `findMany` returns rows in
  store order, `findFirst`/`find` return the first matching row, `upsert`
  replaces the row with the matching key or appends a fresh one, and a
  `$transaction` either applies all of its writes or none of them.  Job
  execution is sequential (one invocation at a time), so each transaction and
  each check-then-create is a single atomic step of the model.
* Transaction failure is modelled by an oracle `fails : String → Bool` telling
  which equipment group's transaction throws; as in the source, where no
  `try`/`catch` surrounds the transaction, a throw ends the whole run.
-/

/-! ## Data model -/

/-- Engine status values carried by `ENGINE_STATUS` events. -/
inductive EngStatus where
  | idle
  | running
  | off
deriving DecidableEq, Repr

/-- Severity values carried by `DIAGNOSTIC_CODE` events. -/
inductive DiagSeverity where
  | low
  | medium
  | high
deriving DecidableEq, Repr

/-- The seven telemetry event kinds (enum `EventType` of the Prisma schema). -/
inductive EventType where
  | engineStatusTy
  | fuelLevelTy
  | locationUpdateTy
  | engineTempTy
  | diagnosticCodeTy
  | payloadCycleTy
  | hydraulicPressureTy
deriving DecidableEq, Repr

/-- The kind-specific JSONB `value` of a telemetry record, as a tagged union
(one constructor per event kind, fields as produced by `RawEventGenerator`). -/
inductive EventValue where
  | engineStatus (status : EngStatus) (rpm : ℚ)
  | fuelLevel (level : ℚ)
  | locationUpdate (lat long : ℚ)
  | engineTemp (temp : ℚ)
  | diagnosticCode (code : String) (severity : DiagSeverity)
  | payloadCycle (payloadTonnes cycleTimeSeconds : ℚ)
  | hydraulicPressure (pressurePsi : ℚ)
deriving DecidableEq, Repr

/-- The event kind of a value (the `eventType` column of `RawEventLog`). -/
def EventValue.eventType : EventValue → EventType
  | .engineStatus _ _ => .engineStatusTy
  | .fuelLevel _ => .fuelLevelTy
  | .locationUpdate _ _ => .locationUpdateTy
  | .engineTemp _ => .engineTempTy
  | .diagnosticCode _ _ => .diagnosticCodeTy
  | .payloadCycle _ _ => .payloadCycleTy
  | .hydraulicPressure _ => .hydraulicPressureTy

/-- The JavaScript access `(value as any).status`: `some s` on an
`ENGINE_STATUS` value, `undefined` (here `none`) otherwise. -/
def EventValue.statusOf : EventValue → Option EngStatus
  | .engineStatus s _ => some s
  | _ => none

/-- One `RawEventLog` row (a Telemetry Record).  `timestamp` is in
milliseconds since the epoch, as `Date.getTime()` yields. -/
structure RawEventLog where
  id : ℕ
  equipmentId : String
  timestamp : ℤ
  value : EventValue
  isProcessed : Bool
deriving DecidableEq, Repr

/-- One `LineItem` row (a Contract Line).  `contractSiteId` is the `siteId` of
the joined `contract` row (`include: { contract: true }` in the detector). -/
structure LineItem where
  lineItemId : String
  equipmentId : String
  startDate : ℤ
  endDate : ℤ
  contractSiteId : String
deriving DecidableEq, Repr

/-- One `LineItemUsage` row (the Usage Statistics of one Contract Line).

Modelled from the spec: the Prisma schema file itself is not among the given
sources, so the column list follows §3 of the spec — cumulative fields
`totalEngineHours`, `totalIdleHours`, `fuelConsumed`, `payloadMovedTonnes`,
`totalCycleTimeSeconds` (internal), `cycleCount` (internal) and the four
derived fields.  This matches every column the aggregator reads or writes. -/
structure LineItemUsage where
  lineItemId : String
  totalEngineHours : ℚ
  totalIdleHours : ℚ
  workingHours : ℚ
  fuelConsumed : ℚ
  payloadMovedTonnes : ℚ
  totalCycleTimeSeconds : ℚ
  cycleCount : ℚ
  workingToIdleRatio : ℚ
  fuelBurnRate : ℚ
  avgCycleTimeSeconds : ℚ
deriving DecidableEq, Repr

/-! ## Usage Aggregator, batch metrics (Step A of `processRawLogs`) -/

/-- The filter `(l.value as any).status === 'RUNNING' || === 'IDLE'`. -/
def isRunningOrIdle (v : EventValue) : Bool :=
  v.statusOf == some EngStatus.running || v.statusOf == some EngStatus.idle

/-- The filter `(l.value as any).status === 'IDLE'`. -/
def isIdleStatus (v : EventValue) : Bool :=
  v.statusOf == some EngStatus.idle

/-- The access `(l.value as any).payloadTonnes` (only ever applied to
`PAYLOAD_CYCLE` values in the source, after a filter on `eventType`). -/
def payloadTonnesOf (v : EventValue) : ℚ :=
  match v with
  | .payloadCycle p _ => p
  | _ => 0

/-- The access `(l.value as any).cycleTimeSeconds`. -/
def cycleTimeSecondsOf (v : EventValue) : ℚ :=
  match v with
  | .payloadCycle _ c => c
  | _ => 0

/-- The `batchMetrics` object of Step A of `processRawLogs`: per-batch deltas
computed from one equipment group's unprocessed logs. -/
structure BatchMetrics where
  totalEngineHours : ℚ
  totalIdleHours : ℚ
  payloadMovedTonnes : ℚ
  totalCycleTimeSeconds : ℚ
  cycleCount : ℚ
deriving DecidableEq, Repr

/-- Step A of `processRawLogs`: metrics of one batch of logs. -/
def batchMetrics (logs : List RawEventLog) : BatchMetrics where
  totalEngineHours :=
    ((logs.filter fun l => isRunningOrIdle l.value).length : ℚ) * 0.1
  totalIdleHours :=
    ((logs.filter fun l => isIdleStatus l.value).length : ℚ) * 0.1
  payloadMovedTonnes :=
    (logs.filter fun l => l.value.eventType == EventType.payloadCycleTy).foldl
      (fun sum l => sum + payloadTonnesOf l.value) 0
  totalCycleTimeSeconds :=
    (logs.filter fun l => l.value.eventType == EventType.payloadCycleTy).foldl
      (fun sum l => sum + cycleTimeSecondsOf l.value) 0
  cycleCount :=
    ((logs.filter fun l => l.value.eventType == EventType.payloadCycleTy).length : ℚ)

/-! ## Usage Aggregator, merge and upsert (Steps B–D of `processRawLogs`) -/

/-- `newTotalEngineHours` of Step C: existing total (0 if no row) plus the
batch delta. -/
def newTotalEngineHours (existing : Option LineItemUsage) (m : BatchMetrics) : ℚ :=
  (existing.map fun u => u.totalEngineHours).getD 0 + m.totalEngineHours

/-- `newTotalIdleHours` of Step C. -/
def newTotalIdleHours (existing : Option LineItemUsage) (m : BatchMetrics) : ℚ :=
  (existing.map fun u => u.totalIdleHours).getD 0 + m.totalIdleHours

/-- `newWorkingHours` of Step C. -/
def newWorkingHours (existing : Option LineItemUsage) (m : BatchMetrics) : ℚ :=
  newTotalEngineHours existing m - newTotalIdleHours existing m

/-- `newFuelConsumed` of Step C — recomputed from the new total engine hours. -/
def newFuelConsumed (existing : Option LineItemUsage) (m : BatchMetrics) : ℚ :=
  newTotalEngineHours existing m * 5.5

/-- `updatedCycleTime` of Step C. -/
def updatedCycleTime (existing : Option LineItemUsage) (m : BatchMetrics) : ℚ :=
  (existing.map fun u => u.totalCycleTimeSeconds).getD 0 + m.totalCycleTimeSeconds

/-- `updatedCycleCount` of Step C. -/
def updatedCycleCount (existing : Option LineItemUsage) (m : BatchMetrics) : ℚ :=
  (existing.map fun u => u.cycleCount).getD 0 + m.cycleCount

/-- Steps B–D of `processRawLogs`, inside the transaction: read the existing
usage row (`findUnique`, or the all-zero default object), combine it with the
batch metrics, and upsert.  In the `update` branch the source increments
`totalEngineHours`, `totalIdleHours` and `payloadMovedTonnes`, overwrites the
derived fields with freshly computed values, and writes nothing to
`totalCycleTimeSeconds` or `cycleCount`; in the `create` branch those two
columns are likewise absent from the created data, so they keep the store
default 0 (default modelled from the spec, the schema file being absent from
the sources). -/
def upsertUsage (existing : Option LineItemUsage) (lineItemId : String)
    (m : BatchMetrics) : LineItemUsage :=
  match existing with
  | none =>
      { lineItemId := lineItemId
        totalEngineHours := newTotalEngineHours none m
        totalIdleHours := newTotalIdleHours none m
        workingHours := newWorkingHours none m
        fuelConsumed := newFuelConsumed none m
        payloadMovedTonnes := m.payloadMovedTonnes
        totalCycleTimeSeconds := 0
        cycleCount := 0
        workingToIdleRatio :=
          if newTotalEngineHours none m > 0 then
            newWorkingHours none m / newTotalEngineHours none m * 100
          else 0
        fuelBurnRate :=
          if newWorkingHours none m > 0 then
            newFuelConsumed none m / newWorkingHours none m
          else 0
        avgCycleTimeSeconds :=
          if updatedCycleCount none m > 0 then
            updatedCycleTime none m / updatedCycleCount none m
          else 0 }
  | some u =>
      { u with
        totalEngineHours := u.totalEngineHours + m.totalEngineHours
        totalIdleHours := u.totalIdleHours + m.totalIdleHours
        payloadMovedTonnes := u.payloadMovedTonnes + m.payloadMovedTonnes
        workingHours := newWorkingHours (some u) m
        fuelConsumed := newFuelConsumed (some u) m
        workingToIdleRatio :=
          if newTotalEngineHours (some u) m > 0 then
            newWorkingHours (some u) m / newTotalEngineHours (some u) m * 100
          else 0
        fuelBurnRate :=
          if newWorkingHours (some u) m > 0 then
            newFuelConsumed (some u) m / newWorkingHours (some u) m
          else 0
        avgCycleTimeSeconds :=
          if updatedCycleCount (some u) m > 0 then
            updatedCycleTime (some u) m / updatedCycleCount (some u) m
          else 0 }

/-- Derived-field consistency as §3 of the spec words it: every derived field
of a Usage Statistics record is the stated pure function of the record's own
cumulative fields. -/
def DerivedConsistent (u : LineItemUsage) : Prop :=
  u.workingHours = u.totalEngineHours - u.totalIdleHours ∧
  u.workingToIdleRatio =
    (if u.totalEngineHours > 0 then u.workingHours / u.totalEngineHours * 100 else 0) ∧
  u.fuelBurnRate = (if u.workingHours > 0 then u.fuelConsumed / u.workingHours else 0) ∧
  u.avgCycleTimeSeconds =
    (if u.cycleCount > 0 then u.totalCycleTimeSeconds / u.cycleCount else 0)

instance (u : LineItemUsage) : Decidable (DerivedConsistent u) := by
  unfold DerivedConsistent; infer_instance

/-! ## Older variant of the aggregator (the unnamed source file) -/

/-- The `metrics` accumulator object of the older `calculateMetrics`. -/
structure OldMetrics where
  totalIdleHours : ℚ
  totalEngineHours : ℚ
  fuelConsumed : ℚ
  highEngineTempAlerts : ℚ
  suddenFuelDrops : ℚ
  diagnosticErrors : ℚ
deriving DecidableEq, Repr

/-- The all-zero initial `metrics` object of `calculateMetrics`. -/
def oldMetricsZero : OldMetrics :=
  { totalIdleHours := 0, totalEngineHours := 0, fuelConsumed := 0
    highEngineTempAlerts := 0, suddenFuelDrops := 0, diagnosticErrors := 0 }

/-- One iteration of the `for (const log of logs)` loop of the older
`calculateMetrics`; the second state component is `lastFuelReading`. -/
def calcMetricsStep (acc : OldMetrics × Option ℚ) (log : RawEventLog) :
    OldMetrics × Option ℚ :=
  match log.value with
  | .engineStatus s _ =>
      (match s with
       | .running => ({ acc.1 with totalEngineHours := acc.1.totalEngineHours + 0.1 }, acc.2)
       | .idle => ({ acc.1 with totalIdleHours := acc.1.totalIdleHours + 0.1 }, acc.2)
       | .off => acc)
  | .fuelLevel level =>
      (match acc.2 with
       | some lastFuelReading =>
           (if lastFuelReading - level > 10 then
              { acc.1 with suddenFuelDrops := acc.1.suddenFuelDrops + 1 }
            else acc.1, some level)
       | none => (acc.1, some level))
  | .engineTemp temp =>
      (if temp > 100 then
         { acc.1 with highEngineTempAlerts := acc.1.highEngineTempAlerts + 1 }
       else acc.1, acc.2)
  | .diagnosticCode _ severity =>
      (if severity == DiagSeverity.high then
         { acc.1 with diagnosticErrors := acc.1.diagnosticErrors + 1 }
       else acc.1, acc.2)
  | _ => acc

/-- The older `calculateMetrics`: fold the loop body over the batch, then set
`fuelConsumed := totalEngineHours * 5.5`. -/
def calculateMetrics (logs : List RawEventLog) : OldMetrics :=
  let m := (logs.foldl calcMetricsStep (oldMetricsZero, none)).1
  { m with fuelConsumed := m.totalEngineHours * 5.5 }

/-- One `LineItemUsage` row as the older variant uses it (only the columns it
reads or writes). -/
structure OldLineItemUsage where
  lineItemId : String
  totalEngineHours : ℚ
  totalIdleHours : ℚ
  workingHours : ℚ
  fuelConsumed : ℚ
  highEngineTempAlerts : ℚ
  suddenFuelDrops : ℚ
  diagnosticErrors : ℚ
deriving DecidableEq, Repr

/-- The older variant's `lineItemUsage.upsert`: the `create` branch spreads the
metrics and adds `workingHours`; the `update` branch increments every field,
`fuelConsumed` and `workingHours` included. -/
def oldUpsertUsage (existing : Option OldLineItemUsage) (lineItemId : String)
    (m : OldMetrics) : OldLineItemUsage :=
  match existing with
  | none =>
      { lineItemId := lineItemId
        totalEngineHours := m.totalEngineHours
        totalIdleHours := m.totalIdleHours
        workingHours := m.totalEngineHours - m.totalIdleHours
        fuelConsumed := m.fuelConsumed
        highEngineTempAlerts := m.highEngineTempAlerts
        suddenFuelDrops := m.suddenFuelDrops
        diagnosticErrors := m.diagnosticErrors }
  | some u =>
      { u with
        totalEngineHours := u.totalEngineHours + m.totalEngineHours
        totalIdleHours := u.totalIdleHours + m.totalIdleHours
        workingHours := u.workingHours + (m.totalEngineHours - m.totalIdleHours)
        fuelConsumed := u.fuelConsumed + m.fuelConsumed
        highEngineTempAlerts := u.highEngineTempAlerts + m.highEngineTempAlerts
        suddenFuelDrops := u.suddenFuelDrops + m.suddenFuelDrops
        diagnosticErrors := u.diagnosticErrors + m.diagnosticErrors }

/-! ## Usage Aggregator job (`processRawLogs` as a state transformer) -/

/-- The store state the Usage Aggregator touches. -/
structure AggState where
  logs : List RawEventLog
  lineItems : List LineItem
  usages : List LineItemUsage
deriving DecidableEq, Repr

/-- The `lineItem.findFirst` filter: the line covers equipment `e` and its
date window contains `now`. -/
def isActiveFor (li : LineItem) (e : String) (now : ℤ) : Bool :=
  li.equipmentId == e && decide (li.startDate ≤ now) && decide (now ≤ li.endDate)

/-- `prisma.lineItem.findFirst` for one equipment group. -/
def findActiveLineItem (items : List LineItem) (e : String) (now : ℤ) :
    Option LineItem :=
  items.find? fun li => isActiveFor li e now

/-- The `for (const equipmentId in logsByEquipment)` key order: distinct
equipment ids of the fetched logs, in first-occurrence order. -/
def keyList (logs : List RawEventLog) : List String :=
  logs.foldl (fun acc l => if acc.contains l.equipmentId then acc else acc ++ [l.equipmentId]) []

/-- Step E, `rawEventLog.updateMany`: set `isProcessed := true` on every row
whose id is in `ids`. -/
def markProcessed (ids : List ℕ) (logs : List RawEventLog) : List RawEventLog :=
  logs.map fun l => if ids.contains l.id then { l with isProcessed := true } else l

/-- `lineItemUsage.findUnique` by line-item key. -/
def findUsage (us : List LineItemUsage) (k : String) : Option LineItemUsage :=
  us.find? fun u => u.lineItemId == k

/-- Store semantics of `lineItemUsage.upsert`: replace the row with the same
key, or append a fresh row. -/
def setUsage (us : List LineItemUsage) (u : LineItemUsage) : List LineItemUsage :=
  if us.any (fun v => v.lineItemId == u.lineItemId) then
    us.map fun v => if v.lineItemId == u.lineItemId then u else v
  else us ++ [u]

/-- The committed effect of one equipment group's transaction (Steps B–E):
upsert the line's usage row and mark the group's logs processed. -/
def applyGroup (st : AggState) (li : LineItem) (glogs : List RawEventLog) : AggState :=
  { st with
    usages := setUsage st.usages
      (upsertUsage (findUsage st.usages li.lineItemId) li.lineItemId (batchMetrics glogs))
    logs := markProcessed (glogs.map fun l => l.id) st.logs }

/-- The `for (const equipmentId in logsByEquipment)` loop.  `fails` tells
which group's transaction throws; the source has no `try`/`catch`, so a throw
rolls the failing transaction back and ends the run with the state as it
stood. -/
def processGroups (fails : String → Bool) (now : ℤ) (unproc : List RawEventLog) :
    List String → AggState → AggState
  | [], st => st
  | k :: rest, st =>
      match findActiveLineItem st.lineItems k now with
      | none => processGroups fails now unproc rest st
      | some li =>
          if fails k then st
          else
            processGroups fails now unproc rest
              (applyGroup st li (unproc.filter fun l => l.equipmentId == k))

/-- `processRawLogs` of the Usage Aggregator: fetch unprocessed logs, return
immediately if there are none, else group by equipment and process each group. -/
def runAggregator (fails : String → Bool) (st : AggState) (now : ℤ) : AggState :=
  if (st.logs.filter fun l => !l.isProcessed).isEmpty then st
  else
    processGroups fails now (st.logs.filter fun l => !l.isProcessed)
      (keyList (st.logs.filter fun l => !l.isProcessed)) st

/-- The failure-free oracle: every transaction commits. -/
def noFailures : String → Bool := fun _ => false

/-! ## Anomaly Detector data model -/

/-- The nine anomaly rule types (enum `AnomalyType`; names shortened to Lean
identifiers). -/
inductive AnomalyType where
  | poorWorkingToIdle
  | highFuelBurnRate
  | slowCycleTime
  | geofenceBreach
  | afterHoursOperation
  | suddenFuelDrop
  | highEngineTemp
  | frequentDiagnosticErrors
  | missedMaintenanceWindow
deriving DecidableEq, Repr

/-- Enum `AnomalySeverity`. -/
inductive AnomalySeverity where
  | low
  | medium
  | high
deriving DecidableEq, Repr

/-- Enum `AnomalyStatus`; records are created `UNRESOLVED`. -/
inductive AnomalyStatus where
  | unresolved
  | resolved
deriving DecidableEq, Repr

/-- The rule-specific `details` object of each anomaly, as a tagged union of
the object literals appearing in `checkForAnomalies`. -/
inductive AnomalyDetails where
  | poorRatioDetails (workingToIdle threshold : ℚ)
  | highBurnDetails (currentBurnRate benchmarkRate : ℚ)
  | slowCycleDetails (avgCycleTimeSeconds benchmarkSeconds : ℚ)
  | maintenanceDetails (totalEngineHours nextServiceDueAt : ℚ)
  | geofenceDetails (lat long : ℚ) (site : String)
  | afterHoursDetails (eventTime : ℤ)
  | fuelDropDetails (fromLevel toLevel : ℚ)
  | highTempDetails (temperature threshold : ℚ)
  | diagDetails (errorCode : String) (countInLastHour : ℚ)
deriving DecidableEq, Repr

/-- One `AnomalyLog` row. -/
structure AnomalyLog where
  lineItemId : String
  anomalyType : AnomalyType
  severity : AnomalySeverity
  status : AnomalyStatus
  details : AnomalyDetails
deriving DecidableEq, Repr

/-- One anomaly candidate, before deduplication (the argument triple every
rule passes to `createAnomalyIfNotExists`). -/
structure AnomalyCandidate where
  anomalyType : AnomalyType
  severity : AnomalySeverity
  details : AnomalyDetails
deriving DecidableEq, Repr

/-- `createAnomalyIfNotExists`: `findFirst` an `UNRESOLVED` record of the same
(line, type); create one only if none exists.  Job execution is sequential,
so the check and the create form one atomic step of the model. -/
def createAnomalyIfNotExists (store : List AnomalyLog) (lineItemId : String)
    (c : AnomalyCandidate) : List AnomalyLog :=
  if store.any (fun a =>
      a.lineItemId == lineItemId && a.anomalyType == c.anomalyType &&
      a.status == AnomalyStatus.unresolved) then
    store
  else
    store ++ [{ lineItemId := lineItemId, anomalyType := c.anomalyType,
                severity := c.severity, status := AnomalyStatus.unresolved,
                details := c.details }]

/-- Number of `UNRESOLVED` anomaly rows of one (line, type) pair. -/
def countOpen (store : List AnomalyLog) (l : String) (t : AnomalyType) : ℕ :=
  (store.filter fun a =>
    a.lineItemId == l && a.anomalyType == t && a.status == AnomalyStatus.unresolved).length

/-- The at-most-one-open invariant of §3 of the spec: for every
(contract line, type) pair, at most one `UNRESOLVED` record exists. -/
def AtMostOneOpen (store : List AnomalyLog) : Prop :=
  ∀ l t, countOpen store l t ≤ 1

/-! ## Anomaly rules -/

/-- `Number(x.toFixed(2))` (round to two decimals, ties away from zero). -/
def jsToFixed2 (q : ℚ) : ℚ :=
  (if 0 ≤ q then ((⌊q * 100 + 1 / 2⌋ : ℤ) : ℚ) else ((⌈q * 100 - 1 / 2⌉ : ℤ) : ℚ)) / 100

/-- JavaScript `%` (remainder with truncated division). -/
def jsMod (a n : ℚ) : ℚ :=
  a - n * ((if 0 ≤ a / n then (⌊a / n⌋ : ℤ) else (⌈a / n⌉ : ℤ)) : ℚ)

/-- The four aggregated-data rules of `checkForAnomalies`, in source order:
poor working-to-idle, high fuel-burn rate, slow cycle time, missed
maintenance window.  Each contributes zero or one candidate. -/
def usageCandidates (u : LineItemUsage) : List AnomalyCandidate :=
  (if u.workingToIdleRatio < 50 ∧ u.totalEngineHours > 10 then
    [{ anomalyType := AnomalyType.poorWorkingToIdle, severity := AnomalySeverity.medium,
       details := AnomalyDetails.poorRatioDetails (jsToFixed2 u.workingToIdleRatio) 50 }]
   else []) ++
  (if u.fuelBurnRate > 10 ∧ u.workingHours > 5 then
    [{ anomalyType := AnomalyType.highFuelBurnRate, severity := AnomalySeverity.low,
       details := AnomalyDetails.highBurnDetails (jsToFixed2 u.fuelBurnRate) 8 }]
   else []) ++
  (if u.avgCycleTimeSeconds ≠ 0 ∧ u.avgCycleTimeSeconds > 150 then
    [{ anomalyType := AnomalyType.slowCycleTime, severity := AnomalySeverity.low,
       details := AnomalyDetails.slowCycleDetails u.avgCycleTimeSeconds 120 }]
   else []) ++
  (if u.totalEngineHours > 250 ∧ jsMod u.totalEngineHours 250 < 10 then
    [{ anomalyType := AnomalyType.missedMaintenanceWindow, severity := AnomalySeverity.medium,
       details := AnomalyDetails.maintenanceDetails u.totalEngineHours
         (((⌈u.totalEngineHours / 250⌉ : ℤ) : ℚ) * 250) }]
   else [])

/-- The hour of a timestamp (`new Date(t).getHours()`), with the local time
zone modelled as UTC; faithful for the nonnegative timestamps of real data. -/
def hourOfTimestamp (t : ℤ) : ℤ :=
  t / 3600000 % 24

/-- The `find` predicate of the AFTER_HOURS_OPERATION rule. -/
def isAfterHoursLog (l : RawEventLog) : Bool :=
  match l.value with
  | .engineStatus s _ =>
      s != EngStatus.off &&
      (decide (hourOfTimestamp l.timestamp < 6) || decide (hourOfTimestamp l.timestamp > 19))
  | _ => false

/-- AFTER_HOURS_OPERATION: fires on the first matching `ENGINE_STATUS` log. -/
def afterHoursCandidate (recent : List RawEventLog) : List AnomalyCandidate :=
  match recent.find? isAfterHoursLog with
  | none => []
  | some l =>
      [{ anomalyType := AnomalyType.afterHoursOperation, severity := AnomalySeverity.medium,
         details := AnomalyDetails.afterHoursDetails l.timestamp }]

/-- The access `(l.value as any).level`. -/
def fuelLevelOf (v : EventValue) : ℚ :=
  match v with
  | .fuelLevel level => level
  | _ => 0

/-- The fuel logs of the window, sorted chronologically
(`.sort((a, b) => a.timestamp - b.timestamp)`, a stable ascending sort). -/
def sortedFuelLogs (recent : List RawEventLog) : List RawEventLog :=
  (recent.filter fun l => l.value.eventType == EventType.fuelLevelTy).mergeSort
    fun a b => decide (a.timestamp ≤ b.timestamp)

/-- The scan of the SUDDEN_FUEL_DROP loop: the first chronologically adjacent
pair whose level drops by strictly more than 15 (the loop `break`s there). -/
def firstFuelDropPair : List RawEventLog → Option (ℚ × ℚ)
  | a :: b :: rest =>
      if fuelLevelOf a.value - fuelLevelOf b.value > 15 then
        some (fuelLevelOf a.value, fuelLevelOf b.value)
      else firstFuelDropPair (b :: rest)
  | _ => none

/-- SUDDEN_FUEL_DROP: one candidate from the first adjacent drop, if any. -/
def fuelDropCandidate (recent : List RawEventLog) : List AnomalyCandidate :=
  match firstFuelDropPair (sortedFuelLogs recent) with
  | none => []
  | some p =>
      [{ anomalyType := AnomalyType.suddenFuelDrop, severity := AnomalySeverity.high,
         details := AnomalyDetails.fuelDropDetails p.1 p.2 }]

/-- The access `(l.value as any).temp`. -/
def engineTempOf (v : EventValue) : ℚ :=
  match v with
  | .engineTemp temp => temp
  | _ => 0

/-- HIGH_ENGINE_TEMP: fires on the first `ENGINE_TEMP` log with temp > 102. -/
def highTempCandidate (recent : List RawEventLog) : List AnomalyCandidate :=
  match recent.find? (fun l =>
      l.value.eventType == EventType.engineTempTy && decide (engineTempOf l.value > 102)) with
  | none => []
  | some l =>
      [{ anomalyType := AnomalyType.highEngineTemp, severity := AnomalySeverity.high,
         details := AnomalyDetails.highTempDetails (engineTempOf l.value) 102 }]

/-- The access `(l.value as any).code`. -/
def diagCodeOf (v : EventValue) : Option String :=
  match v with
  | .diagnosticCode code _ => some code
  | _ => none

/-- The key order of the `errorCounts` object: distinct diagnostic codes in
first-occurrence order. -/
def diagCodeList (logs : List RawEventLog) : List String :=
  logs.foldl
    (fun acc l =>
      match diagCodeOf l.value with
      | some c => if acc.contains c then acc else acc ++ [c]
      | none => acc) []

/-- `errorCounts[code]`: occurrences of one code among the window's
`DIAGNOSTIC_CODE` logs. -/
def diagCodeCount (logs : List RawEventLog) (c : String) : ℕ :=
  (logs.filter fun l => diagCodeOf l.value == some c).length

/-- FREQUENT_DIAGNOSTIC_ERRORS: one candidate per code appearing ≥ 3 times. -/
def diagCandidates (recent : List RawEventLog) : List AnomalyCandidate :=
  ((diagCodeList (recent.filter fun l =>
      l.value.eventType == EventType.diagnosticCodeTy)).filter fun c =>
    3 ≤ diagCodeCount (recent.filter fun l =>
      l.value.eventType == EventType.diagnosticCodeTy) c).map
    fun c =>
      { anomalyType := AnomalyType.frequentDiagnosticErrors,
        severity := AnomalySeverity.medium,
        details := AnomalyDetails.diagDetails c
          ((diagCodeCount (recent.filter fun l =>
             l.value.eventType == EventType.diagnosticCodeTy) c : ℤ) : ℚ) }

/-! ## The geofence rule (real arithmetic) -/

/-- The hard-coded `siteGeofence` latitude. -/
def siteLat : ℚ := 12.9716

/-- The hard-coded `siteGeofence` longitude. -/
def siteLong : ℚ := 79.1588

/-- The hard-coded `siteGeofence` radius in km. -/
def siteRadiusKm : ℚ := 5

/-- `Math.atan2(y, x)` over the reals. -/
noncomputable def atan2 (y x : ℝ) : ℝ :=
  if 0 < x then Real.arctan (y / x)
  else if x < 0 then
    (if 0 ≤ y then Real.arctan (y / x) + Real.pi else Real.arctan (y / x) - Real.pi)
  else
    (if 0 < y then Real.pi / 2 else if y < 0 then -(Real.pi / 2) else 0)

/-- The quantity `a` of the haversine computation in `checkForAnomalies`. -/
noncomputable def haversineA (lat long : ℚ) : ℝ :=
  Real.sin (((lat : ℝ) - ((siteLat : ℚ) : ℝ)) * (Real.pi / 180) / 2) *
      Real.sin (((lat : ℝ) - ((siteLat : ℚ) : ℝ)) * (Real.pi / 180) / 2) +
    Real.cos (((siteLat : ℚ) : ℝ) * (Real.pi / 180)) *
        Real.cos ((lat : ℝ) * (Real.pi / 180)) *
      (Real.sin (((long : ℝ) - ((siteLong : ℚ) : ℝ)) * (Real.pi / 180) / 2) *
        Real.sin (((long : ℝ) - ((siteLong : ℚ) : ℝ)) * (Real.pi / 180) / 2))

/-- The haversine distance (km) from the site center, exactly as the source
computes it: `R * 2 * atan2(sqrt(a), sqrt(1 - a))` with `R = 6371`. -/
noncomputable def haversineDistanceKm (lat long : ℚ) : ℝ :=
  6371 * (2 * atan2 (Real.sqrt (haversineA lat long)) (Real.sqrt (1 - haversineA lat long)))

/-- The access `(l.value as any).lat / .long`. -/
def locOf (v : EventValue) : Option (ℚ × ℚ) :=
  match v with
  | .locationUpdate lat long => some (lat, long)
  | _ => none

open Classical in
/-- GEOFENCE_BREACH: the source takes `recentLogs.find(...)` — the *first*
`LOCATION_UPDATE` of the fetched window — and fires when its haversine
distance from the site center exceeds the radius. -/
noncomputable def geofenceCandidate (li : LineItem) (recent : List RawEventLog) :
    List AnomalyCandidate :=
  match recent.find? (fun l => l.value.eventType == EventType.locationUpdateTy) with
  | none => []
  | some l =>
      match locOf l.value with
      | none => []
      | some p =>
          if haversineDistanceKm p.1 p.2 > ((siteRadiusKm : ℚ) : ℝ) then
            [{ anomalyType := AnomalyType.geofenceBreach, severity := AnomalySeverity.high,
               details := AnomalyDetails.geofenceDetails p.1 p.2 li.contractSiteId }]
          else []

/-! ## Detector job -/

/-- The five event-based rules, in source order. -/
noncomputable def eventCandidates (li : LineItem) (recent : List RawEventLog) :
    List AnomalyCandidate :=
  geofenceCandidate li recent ++ afterHoursCandidate recent ++
    fuelDropCandidate recent ++ highTempCandidate recent ++ diagCandidates recent

/-- All candidates one detector pass produces for one line: the aggregated
rules always run; the event rules are skipped when the window is empty
(`if (recentLogs.length === 0) continue`). -/
noncomputable def lineCandidates (li : LineItem) (u : LineItemUsage)
    (recent : List RawEventLog) : List AnomalyCandidate :=
  usageCandidates u ++ (if recent.isEmpty then [] else eventCandidates li recent)

/-- The store state the Anomaly Detector touches. -/
structure DetState where
  logs : List RawEventLog
  lineItems : List LineItem
  usages : List LineItemUsage
  anomalies : List AnomalyLog

/-- The detector's `findMany`: active lines having a usage record, paired
with that record. -/
def activeLinesWithUsage (st : DetState) (now : ℤ) : List (LineItem × LineItemUsage) :=
  st.lineItems.filterMap fun li =>
    if decide (li.startDate ≤ now) && decide (now ≤ li.endDate) then
      (findUsage st.usages li.lineItemId).map fun u => (li, u)
    else none

/-- The one-hour look-back window of one line's equipment. -/
def recentWindow (logs : List RawEventLog) (e : String) (now : ℤ) : List RawEventLog :=
  logs.filter fun l => l.equipmentId == e && decide (now - 3600000 ≤ l.timestamp)

/-- One run of `checkForAnomalies`: for every active line with usage, evaluate
every rule and feed each candidate to `createAnomalyIfNotExists` in order. -/
noncomputable def detectorRun (st : DetState) (now : ℤ) : DetState :=
  { st with
    anomalies :=
      (activeLinesWithUsage st now).foldl
        (fun store p =>
          (lineCandidates p.1 p.2 (recentWindow st.logs p.1.equipmentId now)).foldl
            (fun s c => createAnomalyIfNotExists s p.1.lineItemId c) store)
        st.anomalies }

/-- Modelled from the spec: §4.3 triggers GEOFENCE_BREACH when the *most
recent* `LOCATION_UPDATE` of the window is farther than the radius; the most
recent location log is the one with the greatest timestamp (later rows win
ties). -/
def mostRecentLocationLog (recent : List RawEventLog) : Option RawEventLog :=
  (recent.filter fun l => l.value.eventType == EventType.locationUpdateTy).foldl
    (fun acc l =>
      match acc with
      | none => some l
      | some m => if decide (m.timestamp ≤ l.timestamp) then some l else some m)
    none

/-- Modelled from the spec: the GEOFENCE_BREACH trigger condition as §4.3
words it — the most recent `LOCATION_UPDATE` in the window lies farther than
the configured radius (great-circle distance) from the site center. -/
def SpecGeofenceFires (recent : List RawEventLog) : Prop :=
  ∃ l lat long, mostRecentLocationLog recent = some l ∧
    l.value = EventValue.locationUpdate lat long ∧
    haversineDistanceKm lat long > ((siteRadiusKm : ℚ) : ℝ)

/-! ## Concrete store rows used by witnesses and counterexamples -/

/-- A fresh (unprocessed) telemetry row. -/
def mkLog (i : ℕ) (e : String) (t : ℤ) (v : EventValue) : RawEventLog :=
  { id := i, equipmentId := e, timestamp := t, value := v, isProcessed := false }

/-- An all-zero usage row for a line (the state after no aggregation). -/
def usageZero (k : String) : LineItemUsage :=
  { lineItemId := k, totalEngineHours := 0, totalIdleHours := 0, workingHours := 0
    fuelConsumed := 0, payloadMovedTonnes := 0, totalCycleTimeSeconds := 0, cycleCount := 0
    workingToIdleRatio := 0, fuelBurnRate := 0, avgCycleTimeSeconds := 0 }

/-- A reachable usage row after one batch of one RUNNING tick and one payload
cycle of 100 s: every derived field matches its formula. -/
def usageC2 : LineItemUsage :=
  { lineItemId := "L1", totalEngineHours := 1, totalIdleHours := 0, workingHours := 1
    fuelConsumed := 5.5, payloadMovedTonnes := 10, totalCycleTimeSeconds := 100, cycleCount := 1
    workingToIdleRatio := 100, fuelBurnRate := 5.5, avgCycleTimeSeconds := 100 }

/-- A usage row whose `fuelConsumed` is *not* `totalEngineHours * 5.5`. -/
def usageC5 : LineItemUsage :=
  { lineItemId := "L1", totalEngineHours := 1, totalIdleHours := 0, workingHours := 1
    fuelConsumed := 0, payloadMovedTonnes := 0, totalCycleTimeSeconds := 0, cycleCount := 0
    workingToIdleRatio := 100, fuelBurnRate := 0, avgCycleTimeSeconds := 0 }

/-- A usage row satisfying `fuelConsumed = totalEngineHours * 5.5`. -/
def usageC5w : LineItemUsage :=
  { lineItemId := "L1", totalEngineHours := 2, totalIdleHours := 1, workingHours := 1
    fuelConsumed := 11, payloadMovedTonnes := 3, totalCycleTimeSeconds := 50, cycleCount := 1
    workingToIdleRatio := 50, fuelBurnRate := 11, avgCycleTimeSeconds := 50 }

/-- An all-zero usage row of the older variant. -/
def oldUsageZero (k : String) : OldLineItemUsage :=
  { lineItemId := k, totalEngineHours := 0, totalIdleHours := 0, workingHours := 0
    fuelConsumed := 0, highEngineTempAlerts := 0, suddenFuelDrops := 0, diagnosticErrors := 0 }

/-- A one-record batch of a single IDLE engine-status tick. -/
def idleBatch : List RawEventLog :=
  [mkLog 1 ("A") 0 (EventValue.engineStatus EngStatus.idle 700)]

/-- A one-record batch of a single RUNNING engine-status tick. -/
def runningBatch : List RawEventLog :=
  [mkLog 1 ("A") 0 (EventValue.engineStatus EngStatus.running 1500)]

/-- A mixed batch: RUNNING, OFF, a payload cycle and a fuel reading. -/
def mixedBatch : List RawEventLog :=
  [mkLog 1 ("A") 0 (EventValue.engineStatus EngStatus.running 1500),
   mkLog 2 ("A") 1 (EventValue.engineStatus EngStatus.off 0),
   mkLog 3 ("A") 2 (EventValue.payloadCycle 10 100),
   mkLog 4 ("A") 3 (EventValue.fuelLevel 50)]

/-- An active line for equipment A over window [0, 100]. -/
def liA : LineItem :=
  { lineItemId := "LA", equipmentId := "A", startDate := 0, endDate := 100,
    contractSiteId := "S1" }

/-- An active line for equipment B over window [0, 100]. -/
def liB : LineItem :=
  { lineItemId := "LB", equipmentId := "B", startDate := 0, endDate := 100,
    contractSiteId := "S1" }

/-- A store with one unprocessed log for each of equipments A and B, both of
which have an active line. -/
def stC4 : AggState :=
  { logs := [mkLog 1 ("A") 10 (EventValue.engineStatus EngStatus.running 1500),
             mkLog 2 ("B") 11 (EventValue.engineStatus EngStatus.running 1400)]
    lineItems := [liA, liB]
    usages := [] }

/-- The failure oracle that makes group A's transaction throw. -/
def failsA : String → Bool := fun e => e == "A"

/-- A store where equipment B has telemetry but no line at all; equipment A
has an active line. -/
def stC9 : AggState :=
  { logs := [mkLog 1 ("A") 10 (EventValue.engineStatus EngStatus.running 1500),
             mkLog 2 ("B") 11 (EventValue.engineStatus EngStatus.running 1400)]
    lineItems := [liA]
    usages := [] }

/-- The per-log frame relation of a run with respect to equipment `e`: a log
row is either untouched or merely marked processed, and rows of equipment `e`
are untouched. -/
def LogFrame (e : String) (l0 l1 : RawEventLog) : Prop :=
  (l1 = l0 ∨ l1 = { l0 with isProcessed := true }) ∧ (l0.equipmentId = e → l1 = l0)

/-- An empty detector store. -/
def emptyDet : DetState :=
  { logs := [], lineItems := [], usages := [], anomalies := [] }

/-- Fuel-drop scenario window: readings 80 then 60 within the hour. -/
def w8060 : List RawEventLog :=
  [mkLog 1 ("A") 1000 (EventValue.fuelLevel 80),
   mkLog 2 ("A") 2000 (EventValue.fuelLevel 60)]

/-- Fuel-drop scenario window: readings 80 then 70 within the hour. -/
def w8070 : List RawEventLog :=
  [mkLog 1 ("A") 1000 (EventValue.fuelLevel 80),
   mkLog 2 ("A") 2000 (EventValue.fuelLevel 70)]

/-- Geofence scenario window: a single reading about 48 km from the site. -/
def wFar : List RawEventLog :=
  [mkLog 1 ("A") 1000 (EventValue.locationUpdate 13.05 79.60)]

/-- Geofence scenario window: a single reading about 1.3 km from the site. -/
def wNear : List RawEventLog :=
  [mkLog 1 ("A") 1000 (EventValue.locationUpdate 12.975 79.160)]

/-- Geofence window whose *first* location log is antipodal to the site while
the *most recent* one sits exactly at the site center. -/
def wMix : List RawEventLog :=
  [mkLog 1 ("A") 1000 (EventValue.locationUpdate 192.9716 79.1588),
   mkLog 2 ("A") 2000 (EventValue.locationUpdate 12.9716 79.1588)]

/-- Whether a chronologically adjacent pair of fuel readings in `l` drops by
strictly more than 15 (the spec's SUDDEN_FUEL_DROP trigger over the sorted
window). -/
def HasAdjacentDrop (l : List RawEventLog) : Prop :=
  ∃ n a b, l[n]? = some a ∧ l[n + 1]? = some b ∧
    fuelLevelOf a.value - fuelLevelOf b.value > 15

@[simp] lemma eventType_engineStatus (s : EngStatus) (r : ℚ) :
    (EventValue.engineStatus s r).eventType = EventType.engineStatusTy := rfl
@[simp] lemma eventType_fuelLevel (q : ℚ) :
    (EventValue.fuelLevel q).eventType = EventType.fuelLevelTy := rfl
@[simp] lemma eventType_locationUpdate (a b : ℚ) :
    (EventValue.locationUpdate a b).eventType = EventType.locationUpdateTy := rfl
@[simp] lemma eventType_engineTemp (q : ℚ) :
    (EventValue.engineTemp q).eventType = EventType.engineTempTy := rfl
@[simp] lemma eventType_diagnosticCode (c : String) (s : DiagSeverity) :
    (EventValue.diagnosticCode c s).eventType = EventType.diagnosticCodeTy := rfl
@[simp] lemma eventType_payloadCycle (p c : ℚ) :
    (EventValue.payloadCycle p c).eventType = EventType.payloadCycleTy := rfl
@[simp] lemma eventType_hydraulicPressure (q : ℚ) :
    (EventValue.hydraulicPressure q).eventType = EventType.hydraulicPressureTy := rfl
@[simp] lemma payloadTonnesOf_payloadCycle (p c : ℚ) :
    payloadTonnesOf (EventValue.payloadCycle p c) = p := rfl
@[simp] lemma cycleTimeSecondsOf_payloadCycle (p c : ℚ) :
    cycleTimeSecondsOf (EventValue.payloadCycle p c) = c := rfl

lemma foldl_add_eq_sum (f : RawEventLog → ℚ) :
    ∀ (logs : List RawEventLog) (a : ℚ),
      logs.foldl (fun sum l => sum + f l) a = a + (logs.map f).sum := by
  intro logs
  induction logs with
  | nil => intro a; simp
  | cons l rest ih => intro a; simp [ih]; ring

lemma sum_payload_eq (logs : List RawEventLog) :
    ((logs.filter fun l => l.value.eventType == EventType.payloadCycleTy).map
      fun l => payloadTonnesOf l.value).sum =
      (logs.filterMap fun l =>
        match l.value with
        | EventValue.payloadCycle p _ => some p
        | _ => none).sum := by
  induction logs with
  | nil => rfl
  | cons l rest ih =>
      cases hv : l.value <;>
        simp [List.filter_cons, List.filterMap_cons, hv] <;> exact ih

lemma sum_cycletime_eq (logs : List RawEventLog) :
    ((logs.filter fun l => l.value.eventType == EventType.payloadCycleTy).map
      fun l => cycleTimeSecondsOf l.value).sum =
      (logs.filterMap fun l =>
        match l.value with
        | EventValue.payloadCycle _ c => some c
        | _ => none).sum := by
  induction logs with
  | nil => rfl
  | cons l rest ih =>
      cases hv : l.value <;>
        simp [List.filter_cons, List.filterMap_cons, hv] <;> exact ih

lemma payload_filterMap_nonneg (logs : List RawEventLog)
    (hp : ∀ l ∈ logs, 0 ≤ payloadTonnesOf l.value ∧ 0 ≤ cycleTimeSecondsOf l.value) :
    0 ≤ (logs.filterMap fun l =>
        match l.value with
        | EventValue.payloadCycle p _ => some p
        | _ => none).sum := by
  apply List.sum_nonneg
  intro q hq
  rcases List.mem_filterMap.mp hq with ⟨a, ha, hfa⟩
  cases hv : a.value <;> simp [hv] at hfa
  subst hfa
  have := (hp a ha).1
  rwa [hv, payloadTonnesOf_payloadCycle] at this

lemma cycletime_filterMap_nonneg (logs : List RawEventLog)
    (hp : ∀ l ∈ logs, 0 ≤ payloadTonnesOf l.value ∧ 0 ≤ cycleTimeSecondsOf l.value) :
    0 ≤ (logs.filterMap fun l =>
        match l.value with
        | EventValue.payloadCycle _ c => some c
        | _ => none).sum := by
  apply List.sum_nonneg
  intro q hq
  rcases List.mem_filterMap.mp hq with ⟨a, ha, hfa⟩
  cases hv : a.value <;> simp [hv] at hfa
  subst hfa
  have := (hp a ha).2
  rwa [hv, cycleTimeSecondsOf_payloadCycle] at this

@[simp] lemma statusOf_engineStatus (s : EngStatus) (r : ℚ) :
    (EventValue.engineStatus s r).statusOf = some s := rfl
@[simp] lemma statusOf_fuelLevel (q : ℚ) : (EventValue.fuelLevel q).statusOf = none := rfl
@[simp] lemma statusOf_locationUpdate (a b : ℚ) :
    (EventValue.locationUpdate a b).statusOf = none := rfl
@[simp] lemma statusOf_engineTemp (q : ℚ) : (EventValue.engineTemp q).statusOf = none := rfl
@[simp] lemma statusOf_diagnosticCode (c : String) (s : DiagSeverity) :
    (EventValue.diagnosticCode c s).statusOf = none := rfl
@[simp] lemma statusOf_payloadCycle (p c : ℚ) :
    (EventValue.payloadCycle p c).statusOf = none := rfl
@[simp] lemma statusOf_hydraulicPressure (q : ℚ) :
    (EventValue.hydraulicPressure q).statusOf = none := rfl

lemma calc_fold_fields :
    ∀ (logs : List RawEventLog) (m : OldMetrics) (f : Option ℚ),
      (logs.foldl calcMetricsStep (m, f)).1.totalEngineHours =
        m.totalEngineHours +
          0.1 * ((logs.countP fun l => l.value.statusOf == some EngStatus.running) : ℚ) ∧
      (logs.foldl calcMetricsStep (m, f)).1.totalIdleHours =
        m.totalIdleHours +
          0.1 * ((logs.countP fun l => l.value.statusOf == some EngStatus.idle) : ℚ) := by
  intro logs
  induction logs with
  | nil => intro m f; simp
  | cons l rest ih =>
      intro m f
      rw [List.foldl_cons]
      cases hv : l.value with
      | engineStatus s r =>
          cases s <;>
            simp [calcMetricsStep, hv, List.countP_cons, ih] <;>
            (try push_cast) <;> (try ring)
      | fuelLevel level =>
          cases f with
          | none => simp [calcMetricsStep, hv, List.countP_cons, ih]
          | some last =>
              simp only [calcMetricsStep, hv]
              split_ifs <;> simp [List.countP_cons, ih, hv]
      | engineTemp temp =>
          simp only [calcMetricsStep, hv]
          split_ifs <;> simp [List.countP_cons, ih, hv]
      | diagnosticCode c sev =>
          simp only [calcMetricsStep, hv]
          split_ifs <;> simp [List.countP_cons, ih, hv]
      | locationUpdate a b =>
          simp [calcMetricsStep, hv, List.countP_cons, ih]
      | payloadCycle p c =>
          simp [calcMetricsStep, hv, List.countP_cons, ih]
      | hydraulicPressure q =>
          simp [calcMetricsStep, hv, List.countP_cons, ih]

lemma calculateMetrics_engine (logs : List RawEventLog) :
    (calculateMetrics logs).totalEngineHours =
      0.1 * ((logs.countP fun l => l.value.statusOf == some EngStatus.running) : ℚ) := by
  have h := (calc_fold_fields logs oldMetricsZero none).1
  simp only [calculateMetrics]
  simp [oldMetricsZero] at h
  simpa using h

lemma calculateMetrics_idle (logs : List RawEventLog) :
    (calculateMetrics logs).totalIdleHours =
      0.1 * ((logs.countP fun l => l.value.statusOf == some EngStatus.idle) : ℚ) := by
  have h := (calc_fold_fields logs oldMetricsZero none).2
  simp only [calculateMetrics]
  simp [oldMetricsZero] at h
  simpa using h

lemma calculateMetrics_fuel (logs : List RawEventLog) :
    (calculateMetrics logs).fuelConsumed = (calculateMetrics logs).totalEngineHours * 5.5 := by
  simp [calculateMetrics]

lemma batch_engine_no_idle (logs : List RawEventLog)
    (hno : ∀ l ∈ logs, l.value.statusOf ≠ some EngStatus.idle) :
    (batchMetrics logs).totalEngineHours =
      0.1 * ((logs.countP fun l => l.value.statusOf == some EngStatus.running) : ℚ) := by
  have hpt : ∀ l ∈ logs,
      (isRunningOrIdle l.value = true ↔
        (l.value.statusOf == some EngStatus.running) = true) := by
    intro l hl
    have := hno l hl
    cases hv : l.value with
    | engineStatus s r =>
        cases s <;> simp [isRunningOrIdle, hv]
        simp [hv] at this
    | _ => simp [isRunningOrIdle, hv]
  simp only [batchMetrics]
  rw [← List.countP_eq_length_filter, List.countP_congr hpt]
  ring

lemma batch_idle_no_idle (logs : List RawEventLog)
    (hno : ∀ l ∈ logs, l.value.statusOf ≠ some EngStatus.idle) :
    (batchMetrics logs).totalIdleHours = 0 := by
  have : logs.countP (fun l => isIdleStatus l.value) = 0 := by
    rw [List.countP_eq_zero]
    intro l hl
    have := hno l hl
    simp [isIdleStatus]
    intro h
    exact absurd h this
  simp only [batchMetrics]
  rw [← List.countP_eq_length_filter, this]
  simp

lemma old_countP_idle_no_idle (logs : List RawEventLog)
    (hno : ∀ l ∈ logs, l.value.statusOf ≠ some EngStatus.idle) :
    (logs.countP fun l => l.value.statusOf == some EngStatus.idle) = 0 := by
  rw [List.countP_eq_zero]
  intro l hl
  simpa using hno l hl

/-- Claim C2 (code_bug): the claim says every update leaves the derived fields a
pure function of the cumulative fields, including
avgCycleTimeSeconds = totalCycleTimeSeconds / cycleCount.  The code computes the
new average from the read row plus the batch but never writes the cumulative
cycle columns back, so a consistent reachable row becomes inconsistent after one
PAYLOAD_CYCLE update: the stored average is 150 while the stored cumulative
quotient is still 100. -/
theorem c2_cycle_fields_not_persisted :
    DerivedConsistent usageC2 ∧
    ¬ DerivedConsistent (upsertUsage (some usageC2) ("L1")
      (batchMetrics [mkLog 5 ("A") 0 (EventValue.payloadCycle 10 200)])) := by
  constructor
  · norm_num [DerivedConsistent, usageC2]
  · norm_num [DerivedConsistent, usageC2, upsertUsage, batchMetrics, mkLog,
      newTotalEngineHours, newTotalIdleHours, newWorkingHours, newFuelConsumed,
      updatedCycleTime, updatedCycleCount, isRunningOrIdle, isIdleStatus,
      List.filter_cons, List.filter_nil]

/-- Claim C5 counterexample: the merge step is not purely additive on fuel.  On
an existing row with fuelConsumed = 0 and totalEngineHours = 1, one RUNNING tick
gives fuelConsumed 6.05 = (1 + 0.1) * 5.5, not the additive 0 + 0.1 * 5.5. -/
theorem c5_counterexample :
    ¬ ((upsertUsage (some usageC5) ("L1") (batchMetrics runningBatch)).fuelConsumed =
        usageC5.fuelConsumed + (batchMetrics runningBatch).totalEngineHours * 5.5) := by
  norm_num [usageC5, upsertUsage, batchMetrics, runningBatch, mkLog,
    newFuelConsumed, newTotalEngineHours, isRunningOrIdle, isIdleStatus,
    List.filter_cons, List.filter_nil]

/-- Claim C5 (amended): the merge step always recomputes fuelConsumed from the
cumulative total, newFuelConsumed = (existing totalEngineHours + delta) * 5.5,
and this agrees with the additive rule exactly when the existing row already
satisfies fuelConsumed = totalEngineHours * 5.5. -/
theorem c5_fuel_recomputed_from_totals (u : LineItemUsage) (lid : String)
    (m : BatchMetrics) :
    (upsertUsage (some u) lid m).fuelConsumed =
      (u.totalEngineHours + m.totalEngineHours) * 5.5 ∧
    (u.fuelConsumed = u.totalEngineHours * 5.5 →
      (upsertUsage (some u) lid m).fuelConsumed =
        u.fuelConsumed + m.totalEngineHours * 5.5) := by
  constructor
  · simp [upsertUsage, newFuelConsumed, newTotalEngineHours]
  · intro h
    simp [upsertUsage, newFuelConsumed, newTotalEngineHours, h]
    ring

/-- Claim C5 witness: the amended theorem instantiated at a row satisfying
fuelConsumed = totalEngineHours * 5.5, where both readings coincide. -/
theorem c5_witness :
    usageC5w.fuelConsumed = usageC5w.totalEngineHours * 5.5 ∧
    (upsertUsage (some usageC5w) ("L1") (batchMetrics runningBatch)).fuelConsumed =
      usageC5w.fuelConsumed + (batchMetrics runningBatch).totalEngineHours * 5.5 :=
  ⟨by norm_num [usageC5w],
    (c5_fuel_recomputed_from_totals usageC5w ("L1") (batchMetrics runningBatch)).2
      (by norm_num [usageC5w])⟩

/-- Claim C6: for every batch, the computed deltas satisfy
engineHoursDelta = 0.1 * #(ENGINE_STATUS with status RUNNING or IDLE),
idleHoursDelta = 0.1 * #(ENGINE_STATUS with status IDLE), OFF records
contribute to neither, payloadMovedDelta / cycleTimeDelta / cycleCountDelta are
the sums of payloadTonnes, cycleTimeSeconds and the count over PAYLOAD_CYCLE
records, and all deltas are nonnegative when the payload values are. -/
theorem c6_batch_delta_formulas (logs : List RawEventLog)
    (hp : ∀ l ∈ logs, 0 ≤ payloadTonnesOf l.value ∧ 0 ≤ cycleTimeSecondsOf l.value) :
    (batchMetrics logs).totalEngineHours =
      0.1 * ((logs.countP fun l =>
        l.value.eventType == EventType.engineStatusTy && isRunningOrIdle l.value) : ℚ) ∧
    (batchMetrics logs).totalIdleHours =
      0.1 * ((logs.countP fun l =>
        l.value.eventType == EventType.engineStatusTy && isIdleStatus l.value) : ℚ) ∧
    (∀ l' : RawEventLog, l'.value.statusOf = some EngStatus.off →
      (batchMetrics (l' :: logs)).totalEngineHours = (batchMetrics logs).totalEngineHours ∧
      (batchMetrics (l' :: logs)).totalIdleHours = (batchMetrics logs).totalIdleHours) ∧
    (batchMetrics logs).payloadMovedTonnes =
      (logs.filterMap fun l =>
        match l.value with
        | EventValue.payloadCycle p _ => some p
        | _ => none).sum ∧
    (batchMetrics logs).totalCycleTimeSeconds =
      (logs.filterMap fun l =>
        match l.value with
        | EventValue.payloadCycle _ c => some c
        | _ => none).sum ∧
    (batchMetrics logs).cycleCount =
      ((logs.countP fun l => l.value.eventType == EventType.payloadCycleTy) : ℚ) ∧
    0 ≤ (batchMetrics logs).totalEngineHours ∧
    0 ≤ (batchMetrics logs).totalIdleHours ∧
    0 ≤ (batchMetrics logs).totalEngineHours * 5.5 ∧
    0 ≤ (batchMetrics logs).payloadMovedTonnes ∧
    0 ≤ (batchMetrics logs).totalCycleTimeSeconds ∧
    0 ≤ (batchMetrics logs).cycleCount := by
  have hpay : (batchMetrics logs).payloadMovedTonnes =
      (logs.filterMap fun l =>
        match l.value with
        | EventValue.payloadCycle p _ => some p
        | _ => none).sum := by
    simp [batchMetrics, foldl_add_eq_sum, sum_payload_eq]
  have hcyc : (batchMetrics logs).totalCycleTimeSeconds =
      (logs.filterMap fun l =>
        match l.value with
        | EventValue.payloadCycle _ c => some c
        | _ => none).sum := by
    simp [batchMetrics, foldl_add_eq_sum, sum_cycletime_eq]
  have heng : (batchMetrics logs).totalEngineHours =
      0.1 * ((logs.countP fun l =>
        l.value.eventType == EventType.engineStatusTy && isRunningOrIdle l.value) : ℚ) := by
    have hpt : ∀ l ∈ logs,
        ((l.value.eventType == EventType.engineStatusTy && isRunningOrIdle l.value) = true ↔
          isRunningOrIdle l.value = true) := by
      intro l _
      cases l.value <;> simp [isRunningOrIdle]
    simp only [batchMetrics]
    rw [List.countP_congr hpt, List.countP_eq_length_filter]
    ring
  have hidl : (batchMetrics logs).totalIdleHours =
      0.1 * ((logs.countP fun l =>
        l.value.eventType == EventType.engineStatusTy && isIdleStatus l.value) : ℚ) := by
    have hpt : ∀ l ∈ logs,
        ((l.value.eventType == EventType.engineStatusTy && isIdleStatus l.value) = true ↔
          isIdleStatus l.value = true) := by
      intro l _
      cases l.value <;> simp [isIdleStatus]
    simp only [batchMetrics]
    rw [List.countP_congr hpt, List.countP_eq_length_filter]
    ring
  refine ⟨heng, hidl, ?_, hpay, hcyc, ?_, ?_, ?_, ?_, ?_, ?_, ?_⟩
  · intro l' h
    have h1 : isRunningOrIdle l'.value = false := by
      simp [isRunningOrIdle, h]
    have h2 : isIdleStatus l'.value = false := by
      simp [isIdleStatus, h]
    constructor <;> simp [batchMetrics, List.filter_cons, h1, h2]
  · simp [batchMetrics, List.countP_eq_length_filter]
  · simp only [batchMetrics]; positivity
  · simp only [batchMetrics]; positivity
  · simp only [batchMetrics]; positivity
  · rw [hpay]; exact payload_filterMap_nonneg logs hp
  · rw [hcyc]; exact cycletime_filterMap_nonneg logs hp
  · simp only [batchMetrics]; positivity

/-- Claim C6 witness: the delta formulas evaluated on a concrete mixed batch of
one RUNNING tick, one OFF tick, one payload cycle and one fuel reading. -/
theorem c6_witness :
    (∀ l ∈ mixedBatch, 0 ≤ payloadTonnesOf l.value ∧ 0 ≤ cycleTimeSecondsOf l.value) ∧
    (batchMetrics mixedBatch).totalEngineHours =
      0.1 * ((mixedBatch.countP fun l =>
        l.value.eventType == EventType.engineStatusTy && isRunningOrIdle l.value) : ℚ) ∧
    0 ≤ (batchMetrics mixedBatch).payloadMovedTonnes := by
  have hp : ∀ l ∈ mixedBatch, 0 ≤ payloadTonnesOf l.value ∧ 0 ≤ cycleTimeSecondsOf l.value := by
    intro l hl
    fin_cases hl <;> norm_num [mkLog, payloadTonnesOf, cycleTimeSecondsOf]
  exact ⟨hp, (c6_batch_delta_formulas mixedBatch hp).1,
    (c6_batch_delta_formulas mixedBatch hp).2.2.2.2.2.2.2.2.2.1⟩

/-- Claim C10 counterexample: the two aggregator implementations disagree on a
single IDLE engine-status record from identical zero states: the new code adds
0.1 engine hours for IDLE, the old calculateMetrics counts only RUNNING, so
totalEngineHours, workingHours and fuelConsumed all diverge. -/
theorem c10_counterexample :
    (usageZero ("L1")).fuelConsumed = (usageZero ("L1")).totalEngineHours * 5.5 ∧
    (usageZero ("L1")).workingHours =
      (usageZero ("L1")).totalEngineHours - (usageZero ("L1")).totalIdleHours ∧
    (usageZero ("L1")).totalEngineHours = (oldUsageZero ("L1")).totalEngineHours ∧
    (usageZero ("L1")).totalIdleHours = (oldUsageZero ("L1")).totalIdleHours ∧
    (usageZero ("L1")).workingHours = (oldUsageZero ("L1")).workingHours ∧
    (usageZero ("L1")).fuelConsumed = (oldUsageZero ("L1")).fuelConsumed ∧
    ¬ ((upsertUsage (some (usageZero ("L1"))) ("L1") (batchMetrics idleBatch)).totalEngineHours =
        (oldUpsertUsage (some (oldUsageZero ("L1"))) ("L1")
          (calculateMetrics idleBatch)).totalEngineHours) := by
  refine ⟨by norm_num [usageZero], by norm_num [usageZero], by norm_num [usageZero, oldUsageZero],
    by norm_num [usageZero, oldUsageZero], by norm_num [usageZero, oldUsageZero],
    by norm_num [usageZero, oldUsageZero], ?_⟩
  norm_num [usageZero, oldUsageZero, upsertUsage, oldUpsertUsage, batchMetrics,
    calculateMetrics, calcMetricsStep, oldMetricsZero, idleBatch, mkLog,
    isRunningOrIdle, isIdleStatus, List.filter_cons, List.filter_nil]

/-- Claim C10 (amended): starting from prior states equal on the shared fields
and satisfying fuelConsumed = totalEngineHours * 5.5 and
workingHours = totalEngineHours - totalIdleHours, the new and old update steps
agree on totalEngineHours, totalIdleHours, workingHours and fuelConsumed exactly
when the batch contains no ENGINE_STATUS record with status IDLE. -/
theorem c10_no_idle_agreement (eNew : LineItemUsage) (eOld : OldLineItemUsage)
    (lid : String) (logs : List RawEventLog)
    (he : eNew.totalEngineHours = eOld.totalEngineHours)
    (hi : eNew.totalIdleHours = eOld.totalIdleHours)
    (hw : eNew.workingHours = eOld.workingHours)
    (hf : eNew.fuelConsumed = eOld.fuelConsumed)
    (hfe : eNew.fuelConsumed = eNew.totalEngineHours * 5.5)
    (hwe : eNew.workingHours = eNew.totalEngineHours - eNew.totalIdleHours)
    (hnoidle : ∀ l ∈ logs, l.value.statusOf ≠ some EngStatus.idle) :
    (upsertUsage (some eNew) lid (batchMetrics logs)).totalEngineHours =
      (oldUpsertUsage (some eOld) lid (calculateMetrics logs)).totalEngineHours ∧
    (upsertUsage (some eNew) lid (batchMetrics logs)).totalIdleHours =
      (oldUpsertUsage (some eOld) lid (calculateMetrics logs)).totalIdleHours ∧
    (upsertUsage (some eNew) lid (batchMetrics logs)).workingHours =
      (oldUpsertUsage (some eOld) lid (calculateMetrics logs)).workingHours ∧
    (upsertUsage (some eNew) lid (batchMetrics logs)).fuelConsumed =
      (oldUpsertUsage (some eOld) lid (calculateMetrics logs)).fuelConsumed := by
  have hbe := batch_engine_no_idle logs hnoidle
  have hbi := batch_idle_no_idle logs hnoidle
  have hoe := calculateMetrics_engine logs
  have hoi := calculateMetrics_idle logs
  have hof := calculateMetrics_fuel logs
  rw [old_countP_idle_no_idle logs hnoidle] at hoi
  refine ⟨?_, ?_, ?_, ?_⟩
  · simp only [upsertUsage, oldUpsertUsage]
    rw [hbe, hoe, he]
  · simp only [upsertUsage, oldUpsertUsage]
    rw [hbi, hoi, hi]
    push_cast
    ring
  · simp only [upsertUsage, oldUpsertUsage, newWorkingHours, newTotalEngineHours,
      newTotalIdleHours]
    rw [hbe, hbi, hoe, hoi]
    simp only [Option.map_some', Option.getD_some]
    rw [← hw, hwe]
    push_cast
    ring
  · simp only [upsertUsage, oldUpsertUsage, newFuelConsumed, newTotalEngineHours]
    rw [hbe, hof, hoe]
    simp only [Option.map_some', Option.getD_some]
    rw [← hf, hfe]
    ring

/-- Claim C10 witness: the amended equivalence instantiated at zero states and a
batch with one RUNNING record and no IDLE record, where both updates agree. -/
theorem c10_witness :
    (∀ l ∈ runningBatch, l.value.statusOf ≠ some EngStatus.idle) ∧
    (upsertUsage (some (usageZero ("L2"))) ("L2") (batchMetrics runningBatch)).fuelConsumed =
      (oldUpsertUsage (some (oldUsageZero ("L2"))) ("L2")
        (calculateMetrics runningBatch)).fuelConsumed := by
  have hno : ∀ l ∈ runningBatch, l.value.statusOf ≠ some EngStatus.idle := by
    intro l hl
    fin_cases hl
    simp [mkLog]
  exact ⟨hno,
    (c10_no_idle_agreement (usageZero ("L2")) (oldUsageZero ("L2")) ("L2") runningBatch
      (by norm_num [usageZero, oldUsageZero]) (by norm_num [usageZero, oldUsageZero])
      (by norm_num [usageZero, oldUsageZero]) (by norm_num [usageZero, oldUsageZero])
      (by norm_num [usageZero]) (by norm_num [usageZero]) hno).2.2.2⟩

lemma applyGroup_lineItems (st : AggState) (li : LineItem) (glogs : List RawEventLog) :
    (applyGroup st li glogs).lineItems = st.lineItems := rfl

lemma processGroups_lineItems (fails : String → Bool) (now : ℤ)
    (unproc : List RawEventLog) :
    ∀ (keys : List String) (st : AggState),
      (processGroups fails now unproc keys st).lineItems = st.lineItems := by
  intro keys
  induction keys with
  | nil => intro st; rfl
  | cons k rest ih =>
      intro st
      simp only [processGroups]
      cases h : findActiveLineItem st.lineItems k now with
      | none => exact ih st
      | some li =>
          by_cases hf : fails k = true
          · simp [hf]
          · simp only [hf, if_false, Bool.false_eq_true]
            rw [ih]
            rfl

lemma mem_markProcessed_not_processed {ids : List ℕ} {logs : List RawEventLog}
    {l : RawEventLog} (hmem : l ∈ markProcessed ids logs)
    (hproc : l.isProcessed = false) : l ∈ logs ∧ l.id ∉ ids := by
  rcases List.mem_map.mp hmem with ⟨l0, hl0, heq⟩
  by_cases hc : ids.contains l0.id
  · rw [if_pos hc] at heq
    rw [← heq] at hproc
    simp at hproc
  · rw [if_neg hc] at heq
    subst heq
    refine ⟨hl0, ?_⟩
    simpa using hc

lemma markProcessed_sets {ids : List ℕ} {logs : List RawEventLog} :
    ∀ l ∈ markProcessed ids logs, l.id ∈ ids → l.isProcessed = true := by
  intro l hmem hid
  rcases List.mem_map.mp hmem with ⟨l0, _, heq⟩
  by_cases hc : ids.contains l0.id
  · rw [if_pos hc] at heq
    rw [← heq]
  · rw [if_neg hc] at heq
    subst heq
    exact absurd (by simpa using hid) (by simpa using hc)

lemma markProcessed_invariant {S ids : List ℕ} {logs : List RawEventLog}
    (h : ∀ l ∈ logs, l.id ∈ S → l.isProcessed = true) :
    ∀ l ∈ markProcessed ids logs, l.id ∈ S → l.isProcessed = true := by
  intro l hmem hid
  rcases List.mem_map.mp hmem with ⟨l0, hl0, heq⟩
  by_cases hc : ids.contains l0.id
  · rw [if_pos hc] at heq
    rw [← heq]
  · rw [if_neg hc] at heq
    subst heq
    exact h l0 hl0 hid

lemma processGroups_unprocessed_mono (fails : String → Bool) (now : ℤ)
    (unproc : List RawEventLog) :
    ∀ (keys : List String) (st : AggState) (l : RawEventLog),
      l ∈ (processGroups fails now unproc keys st).logs → l.isProcessed = false →
        l ∈ st.logs := by
  intro keys
  induction keys with
  | nil => intro st l hl _; exact hl
  | cons k rest ih =>
      intro st l hl hproc
      simp only [processGroups] at hl
      cases h : findActiveLineItem st.lineItems k now with
      | none => simp only [h] at hl; exact ih st l hl hproc
      | some li =>
          simp only [h] at hl
          by_cases hf : fails k = true
          · rw [if_pos hf] at hl; exact hl
          · rw [if_neg hf] at hl
            have := ih _ l hl hproc
            exact (mem_markProcessed_not_processed this hproc).1

lemma processGroups_invariant (fails : String → Bool) (now : ℤ)
    (unproc : List RawEventLog) (S : List ℕ) :
    ∀ (keys : List String) (st : AggState),
      (∀ l ∈ st.logs, l.id ∈ S → l.isProcessed = true) →
      ∀ l ∈ (processGroups fails now unproc keys st).logs, l.id ∈ S →
        l.isProcessed = true := by
  intro keys
  induction keys with
  | nil => intro st h; exact h
  | cons k rest ih =>
      intro st h l hl hid
      simp only [processGroups] at hl
      cases hact : findActiveLineItem st.lineItems k now with
      | none => simp only [hact] at hl; exact ih st h l hl hid
      | some li =>
          simp only [hact] at hl
          by_cases hf : fails k = true
          · rw [if_pos hf] at hl; exact h l hl hid
          · rw [if_neg hf] at hl
            exact ih _ (fun x hx => markProcessed_invariant h x hx) l hl hid

lemma processGroups_apply_processed (now : ℤ) (unproc : List RawEventLog)
    (k : String) :
    ∀ (keys : List String) (st : AggState), k ∈ keys →
      findActiveLineItem st.lineItems k now ≠ none →
      ∀ l ∈ (processGroups noFailures now unproc keys st).logs,
        l.id ∈ ((unproc.filter fun x => x.equipmentId == k).map fun x => x.id) →
          l.isProcessed = true := by
  intro keys
  induction keys with
  | nil => intro st hk; cases hk
  | cons j rest ih =>
      intro st hk hact l hl hid
      simp only [processGroups] at hl
      cases h : findActiveLineItem st.lineItems j now with
      | none =>
          simp only [h] at hl
          rcases List.mem_cons.mp hk with rfl | hk'
          · exact absurd h hact
          · exact ih st hk' hact l hl hid
      | some li =>
          simp only [h] at hl
          simp only [noFailures, if_false, Bool.false_eq_true] at hl
          rcases List.mem_cons.mp hk with rfl | hk'
          · refine processGroups_invariant noFailures now unproc _ rest _ ?_ l hl hid
            intro x hx hxid
            exact markProcessed_sets x hx hxid
          · refine ih _ hk' ?_ l hl hid
            rw [applyGroup_lineItems]
            exact hact

lemma keyList_acc_sub :
    ∀ (logs : List RawEventLog) (acc : List String) (x : String), x ∈ acc →
      x ∈ logs.foldl
        (fun acc l => if acc.contains l.equipmentId then acc else acc ++ [l.equipmentId])
        acc := by
  intro logs
  induction logs with
  | nil => intro acc x hx; exact hx
  | cons l rest ih =>
      intro acc x hx
      rw [List.foldl_cons]
      apply ih
      by_cases hc : acc.contains l.equipmentId
      · rw [if_pos hc]; exact hx
      · rw [if_neg hc]; exact List.mem_append_left _ hx

lemma mem_keyList_of_mem :
    ∀ (logs : List RawEventLog) (l : RawEventLog), l ∈ logs →
      l.equipmentId ∈ keyList logs := by
  have haux : ∀ (logs : List RawEventLog) (acc : List String) (l : RawEventLog), l ∈ logs →
      l.equipmentId ∈ logs.foldl
        (fun acc l => if acc.contains l.equipmentId then acc else acc ++ [l.equipmentId])
        acc := by
    intro logs
    induction logs with
    | nil => intro acc l hl; cases hl
    | cons h t ih =>
        intro acc l hl
        rw [List.foldl_cons]
        rcases List.mem_cons.mp hl with rfl | hl'
        · apply keyList_acc_sub
          by_cases hc : acc.contains l.equipmentId
          · rw [if_pos hc]; simpa using hc
          · rw [if_neg hc]; exact List.mem_append_right _ (List.mem_singleton_self _)
        · exact ih _ l hl'
  intro logs l hl
  exact haux logs [] l hl

lemma mem_of_mem_keyList :
    ∀ (logs : List RawEventLog) (x : String), x ∈ keyList logs →
      ∃ l ∈ logs, l.equipmentId = x := by
  have haux : ∀ (logs : List RawEventLog) (acc : List String) (x : String),
      x ∈ logs.foldl
        (fun acc l => if acc.contains l.equipmentId then acc else acc ++ [l.equipmentId])
        acc →
      x ∈ acc ∨ ∃ l ∈ logs, l.equipmentId = x := by
    intro logs
    induction logs with
    | nil => intro acc x hx; exact Or.inl hx
    | cons h t ih =>
        intro acc x hx
        rw [List.foldl_cons] at hx
        rcases ih _ x hx with hstep | ⟨l, hl, rfl⟩
        · by_cases hc : acc.contains h.equipmentId
          · rw [if_pos hc] at hstep; exact Or.inl hstep
          · rw [if_neg hc] at hstep
            rcases List.mem_append.mp hstep with hin | hone
            · exact Or.inl hin
            · exact Or.inr ⟨h, List.mem_cons_self _ _, (List.mem_singleton.mp hone).symm⟩
        · exact Or.inr ⟨l, List.mem_cons_of_mem _ hl, rfl⟩
  intro logs x hx
  rcases haux logs [] x hx with hacc | hex
  · cases hacc
  · exact hex

lemma processGroups_all_skip (fails : String → Bool) (now : ℤ)
    (unproc : List RawEventLog) :
    ∀ (keys : List String) (st : AggState),
      (∀ k ∈ keys, findActiveLineItem st.lineItems k now = none) →
      processGroups fails now unproc keys st = st := by
  intro keys
  induction keys with
  | nil => intro st _; rfl
  | cons k rest ih =>
      intro st h
      simp only [processGroups, h k (List.mem_cons_self _ _)]
      exact ih st fun j hj => h j (List.mem_cons_of_mem _ hj)

/-- Claim C3: running the aggregator twice in succession with no failures and no
new telemetry added between the runs is a no-op — the second run returns the
store (logs, line items and usage rows) of the first run unchanged.  The first
run marks every record it consumes processed, and records skipped for lack of an
active line are skipped identically again. -/
theorem aggregator_second_run_noop (st : AggState) (now : ℤ) :
    runAggregator noFailures (runAggregator noFailures st now) now =
      runAggregator noFailures st now := by
  have hline : (runAggregator noFailures st now).lineItems = st.lineItems := by
    unfold runAggregator
    split_ifs
    · rfl
    · exact processGroups_lineItems noFailures now _ _ st
  have hF : ∀ l ∈ (runAggregator noFailures st now).logs, l.isProcessed = false →
      findActiveLineItem (runAggregator noFailures st now).lineItems l.equipmentId now
        = none := by
    intro l hl hproc
    rw [hline]
    by_contra hact
    unfold runAggregator at hl
    split_ifs at hl with hempty
    · have hmem : l ∈ st.logs.filter fun x => !x.isProcessed :=
        List.mem_filter.mpr ⟨hl, by simp [hproc]⟩
      rw [List.isEmpty_iff] at hempty
      rw [hempty] at hmem
      cases hmem
    · have hin : l ∈ st.logs :=
        processGroups_unprocessed_mono noFailures now _ _ st l hl hproc
      have hunp : l ∈ st.logs.filter fun x => !x.isProcessed :=
        List.mem_filter.mpr ⟨hin, by simp [hproc]⟩
      have hkey : l.equipmentId ∈ keyList (st.logs.filter fun x => !x.isProcessed) :=
        mem_keyList_of_mem _ l hunp
      have hid : l.id ∈
          (((st.logs.filter fun x => !x.isProcessed).filter
            fun x => x.equipmentId == l.equipmentId).map fun x => x.id) :=
        List.mem_map.mpr ⟨l, List.mem_filter.mpr ⟨hunp, by simp⟩, rfl⟩
      have := processGroups_apply_processed now _ l.equipmentId _ st hkey hact l hl hid
      rw [this] at hproc
      cases hproc
  set st1 := runAggregator noFailures st now with hst1
  show (if (st1.logs.filter fun l => !l.isProcessed).isEmpty then st1
    else
      processGroups noFailures now (st1.logs.filter fun l => !l.isProcessed)
        (keyList (st1.logs.filter fun l => !l.isProcessed)) st1) = st1
  split_ifs with h2
  · rfl
  · apply processGroups_all_skip
    intro k hk
    rcases mem_of_mem_keyList _ k hk with ⟨l, hl, rfl⟩
    have hmem : l ∈ st1.logs := (List.mem_filter.mp hl).1
    have hproc : l.isProcessed = false := by
      have := (List.mem_filter.mp hl).2
      simpa using this
    exact hF l hmem hproc

lemma processGroups_abort (fails : String → Bool) (now : ℤ) (unproc : List RawEventLog) :
    ∀ (pre : List String) (k : String) (post : List String) (st : AggState),
      (∀ j ∈ pre, fails j = false) → fails k = true →
      findActiveLineItem st.lineItems k now ≠ none →
      processGroups fails now unproc (pre ++ k :: post) st =
        processGroups fails now unproc pre st := by
  intro pre
  induction pre with
  | nil =>
      intro k post st _ hk hact
      simp only [List.nil_append, processGroups]
      cases h : findActiveLineItem st.lineItems k now with
      | none => exact absurd h hact
      | some li => simp [hk]
  | cons j pre' ih =>
      intro k post st hpre hk hact
      simp only [List.cons_append, processGroups]
      cases h : findActiveLineItem st.lineItems j now with
      | none => exact ih k post st (fun x hx => hpre x (List.mem_cons_of_mem _ hx)) hk hact
      | some li =>
          have hj : fails j = false := hpre j (List.mem_cons_self _ _)
          simp only [hj, Bool.false_eq_true, if_false]
          refine ih k post _ (fun x hx => hpre x (List.mem_cons_of_mem _ hx)) hk ?_
          rw [applyGroup_lineItems]
          exact hact

/-- Claim C4 (amended): when the first failing equipment group (in fetch order)
throws, the run ends there: the resulting store is exactly the store obtained by
processing only the groups strictly before it, so the failing group and every
group after it stay untouched in that run and are retried later.  (The source
has no try/catch around the per-group transaction.) -/
theorem c4_failure_halts_run (fails : String → Bool) (st : AggState) (now : ℤ)
    (pre : List String) (k : String) (post : List String)
    (hsplit : keyList (st.logs.filter fun l => !l.isProcessed) = pre ++ k :: post)
    (hpre : ∀ j ∈ pre, fails j = false)
    (hk : fails k = true)
    (hact : findActiveLineItem st.lineItems k now ≠ none) :
    runAggregator fails st now =
      processGroups fails now (st.logs.filter fun l => !l.isProcessed) pre st := by
  have hne : ((st.logs.filter fun l => !l.isProcessed).isEmpty = true) → False := by
    intro hempty
    rw [List.isEmpty_iff] at hempty
    rw [hempty] at hsplit
    have : (keyList ([] : List RawEventLog)).length = (pre ++ k :: post).length := by
      rw [hsplit]
    simp [keyList] at this
    omega
  unfold runAggregator
  split_ifs with h
  · exact absurd h hne
  · rw [hsplit]
    exact processGroups_abort fails now _ pre k post st hpre hk hact

/-- Claim C4 counterexample: the claim says a failure in one group never
prevents other groups in the same run from being processed.  With group A
failing and group B perfectly processable, the run returns the store unchanged:
B's record is still unprocessed and B's usage row was never created. -/
theorem c4_counterexample :
    runAggregator failsA stC4 50 = stC4 ∧
    failsA ("B") = false ∧
    findActiveLineItem stC4.lineItems ("B") 50 = some liB ∧
    (stC4.logs.filter fun l => l.equipmentId == ("B") && !l.isProcessed) ≠ [] := by
  refine ⟨?_, by decide, by decide, by decide⟩
  decide

/-- Claim C4 witness: the amended halt theorem instantiated at the two-group
store in which group A is the first failing group. -/
theorem c4_witness :
    keyList (stC4.logs.filter fun l => !l.isProcessed) = [] ++ ("A") :: [("B")] ∧
    failsA ("A") = true ∧
    findActiveLineItem stC4.lineItems ("A") 50 ≠ none ∧
    runAggregator failsA stC4 50 =
      processGroups failsA 50 (stC4.logs.filter fun l => !l.isProcessed) [] stC4 :=
  ⟨by decide, by decide, by decide,
    c4_failure_halts_run failsA stC4 50 [] ("A") [("B")] (by decide)
      (by intro j hj; cases hj) (by decide) (by decide)⟩

lemma findUsage_map_replace (us : List LineItemUsage) (u : LineItemUsage) (k : String)
    (hne : u.lineItemId ≠ k) :
    findUsage (us.map fun v => if v.lineItemId == u.lineItemId then u else v) k =
      findUsage us k := by
  induction us with
  | nil => rfl
  | cons v vs ih =>
      simp only [List.map_cons, findUsage, List.find?]
      by_cases hv : v.lineItemId = u.lineItemId
      · rw [if_pos (by simpa using hv)]
        have h1 : (u.lineItemId == k) = false := by simpa using hne
        have h2 : (v.lineItemId == k) = false := by simp [hv]; exact hne
        rw [h1, h2]
        exact ih
      · rw [if_neg (by simpa using hv)]
        cases h : (v.lineItemId == k) with
        | true => rfl
        | false => exact ih

lemma findUsage_append_ne (us : List LineItemUsage) (u : LineItemUsage) (k : String)
    (hne : u.lineItemId ≠ k) :
    findUsage (us ++ [u]) k = findUsage us k := by
  induction us with
  | nil =>
      simp only [List.nil_append, findUsage, List.find?]
      rw [show (u.lineItemId == k) = false by simpa using hne]
  | cons v vs ih =>
      simp only [List.cons_append, findUsage, List.find?] at ih ⊢
      cases hv : (v.lineItemId == k) with
      | true => rfl
      | false => exact ih

lemma findUsage_setUsage_ne (us : List LineItemUsage) (u : LineItemUsage) (k : String)
    (hne : u.lineItemId ≠ k) :
    findUsage (setUsage us u) k = findUsage us k := by
  unfold setUsage
  split_ifs with h
  · exact findUsage_map_replace us u k hne
  · exact findUsage_append_ne us u k hne

lemma upsertUsage_key (us : List LineItemUsage) (k : String) (m : BatchMetrics) :
    (upsertUsage (findUsage us k) k m).lineItemId = k := by
  cases h : findUsage us k with
  | none => rfl
  | some u =>
      simp only [findUsage] at h
      have h' := List.find?_some h
      simp only [upsertUsage]
      simpa using h'

lemma isActiveFor_unpack {li : LineItem} {e : String} {now : ℤ}
    (h : isActiveFor li e now = true) :
    li.equipmentId = e ∧ li.startDate ≤ now ∧ now ≤ li.endDate := by
  simp only [isActiveFor, Bool.and_eq_true, beq_iff_eq, decide_eq_true_eq] at h
  exact ⟨h.1.1, h.1.2, h.2⟩

lemma forall2_markProcessed {e : String} {ids : List ℕ} {as bs : List RawEventLog}
    (h : List.Forall₂ (LogFrame e) as bs)
    (hids : ∀ a ∈ as, a.equipmentId = e → a.id ∉ ids) :
    List.Forall₂ (LogFrame e) as (markProcessed ids bs) := by
  induction h with
  | nil => exact List.Forall₂.nil
  | @cons a b as' bs' hab _ ih =>
      simp only [markProcessed, List.map_cons]
      refine List.Forall₂.cons ?_ (ih fun x hx => hids x (List.mem_cons_of_mem _ hx))
      by_cases hc : ids.contains b.id
      · rw [if_pos hc]
        constructor
        · rcases hab.1 with rfl | rfl
          · exact Or.inr rfl
          · exact Or.inr rfl
        · intro he
          exfalso
          have hba : b = a := hab.2 he
          have : a.id ∈ ids := by
            rw [← hba]
            simpa using hc
          exact hids a (List.mem_cons_self _ _) he this
      · rw [if_neg hc]
        exact hab

lemma logFrame_refl (e : String) (l : RawEventLog) : LogFrame e l l :=
  ⟨Or.inl rfl, fun _ => rfl⟩

lemma processGroups_frame (now : ℤ) (unproc : List RawEventLog) (e : String)
    (orig : AggState) (fails : String → Bool)
    (hids : (orig.logs.map fun l => l.id).Nodup)
    (hkeys : (orig.lineItems.map fun li => li.lineItemId).Nodup)
    (hno : ∀ li ∈ orig.lineItems, li.equipmentId = e →
      ¬(li.startDate ≤ now ∧ now ≤ li.endDate))
    (hunp : ∀ g ∈ unproc, g ∈ orig.logs) :
    ∀ (keys : List String) (st : AggState),
      st.lineItems = orig.lineItems →
      List.Forall₂ (LogFrame e) orig.logs st.logs →
      (∀ li ∈ orig.lineItems, li.equipmentId = e →
        findUsage st.usages li.lineItemId = findUsage orig.usages li.lineItemId) →
      ((processGroups fails now unproc keys st).lineItems = orig.lineItems ∧
       List.Forall₂ (LogFrame e) orig.logs (processGroups fails now unproc keys st).logs ∧
       (∀ li ∈ orig.lineItems, li.equipmentId = e →
         findUsage (processGroups fails now unproc keys st).usages li.lineItemId =
           findUsage orig.usages li.lineItemId)) := by
  intro keys
  induction keys with
  | nil => intro st h1 h2 h3; exact ⟨h1, h2, h3⟩
  | cons k rest ih =>
      intro st h1 h2 h3
      simp only [processGroups]
      cases hact : findActiveLineItem st.lineItems k now with
      | none => exact ih st h1 h2 h3
      | some li =>
          have hmem : li ∈ orig.lineItems := by
            rw [← h1]
            simp only [findActiveLineItem] at hact
            exact List.mem_of_find?_eq_some hact
          have hup : li.equipmentId = k ∧ li.startDate ≤ now ∧ now ≤ li.endDate := by
            simp only [findActiveLineItem] at hact
            have h' := List.find?_some hact
            exact isActiveFor_unpack (by simpa using h')
          have hke : k ≠ e := by
            intro hkeq
            subst hkeq
            exact hno li hmem hup.1 hup.2
          by_cases hf : fails k = true
          · simp only [hf, if_true]
            exact ⟨h1, h2, h3⟩
          · simp only [hf, Bool.false_eq_true, if_false]
            apply ih
            · rw [applyGroup_lineItems]; exact h1
            · simp only [applyGroup]
              apply forall2_markProcessed h2
              intro a ha hae haid
              rcases List.mem_map.mp haid with ⟨g, hg, hgid⟩
              have hgu : g ∈ unproc := (List.mem_filter.mp hg).1
              have hgk : g.equipmentId = k := by
                have := (List.mem_filter.mp hg).2
                simpa using this
              have hga : g = a :=
                List.inj_on_of_nodup_map hids (hunp g hgu) ha hgid
              rw [hga, hae] at hgk
              exact hke hgk.symm
            · intro li' hli' he'
              simp only [applyGroup]
              rw [findUsage_setUsage_ne]
              · exact h3 li' hli' he'
              · have hlik : li.equipmentId = k := hup.1
                have hne : li ≠ li' := by
                  intro heq
                  rw [heq, he'] at hlik
                  exact hke hlik.symm
                have hkne : li.lineItemId ≠ li'.lineItemId := by
                  intro heq
                  exact hne (List.inj_on_of_nodup_map hkeys hmem hli' heq)
                rw [upsertUsage_key]
                exact hkne

/-- Claim C9: an equipment group whose telemetry is fetched but for which no
contract line is active at now is skipped before the transaction: all of its
records keep processed = false and no usage row keyed by any of its lines is
created or modified, under no-duplicate hypotheses on log ids and usage keys. -/
theorem c9_skip_without_active_line (fails : String → Bool) (st : AggState)
    (now : ℤ) (e : String)
    (hids : (st.logs.map fun l => l.id).Nodup)
    (hkeys : (st.lineItems.map fun li => li.lineItemId).Nodup)
    (hno : ∀ li ∈ st.lineItems, li.equipmentId = e →
      ¬(li.startDate ≤ now ∧ now ≤ li.endDate)) :
    List.Forall₂ (fun l0 l1 => l0.equipmentId = e → l1 = l0) st.logs
      (runAggregator fails st now).logs ∧
    (∀ li ∈ st.lineItems, li.equipmentId = e →
      findUsage (runAggregator fails st now).usages li.lineItemId =
        findUsage st.usages li.lineItemId) := by
  unfold runAggregator
  split_ifs
  · exact ⟨List.forall₂_same.mpr fun x _ => fun _ => rfl, fun _ _ _ => rfl⟩
  · have h := processGroups_frame now (st.logs.filter fun l => !l.isProcessed) e st fails
      hids hkeys hno (fun g hg => (List.mem_filter.mp hg).1)
      (keyList (st.logs.filter fun l => !l.isProcessed)) st rfl
      (List.forall₂_same.mpr fun x _ => logFrame_refl e x) (fun _ _ _ => rfl)
    exact ⟨h.2.1.imp fun a b hab => hab.2, h.2.2⟩

/-- Claim C9 witness: the skip theorem evaluated on a store where equipment B
has one unprocessed record and no line item at all: after the run the record is
still unprocessed and no usage row exists. -/
theorem c9_witness :
    ((stC9.logs.map fun l => l.id).Nodup ∧
     (stC9.lineItems.map fun li => li.lineItemId).Nodup ∧
     (∀ li ∈ stC9.lineItems, li.equipmentId = ("B") →
       ¬(li.startDate ≤ 50 ∧ 50 ≤ li.endDate))) ∧
    List.Forall₂ (fun l0 l1 => l0.equipmentId = ("B") → l1 = l0) stC9.logs
      (runAggregator noFailures stC9 50).logs ∧
    (∀ li ∈ stC9.lineItems, li.equipmentId = ("B") →
      findUsage (runAggregator noFailures stC9 50).usages li.lineItemId =
        findUsage stC9.usages li.lineItemId) :=
  ⟨⟨by decide, by decide, by decide⟩,
    c9_skip_without_active_line noFailures stC9 50 ("B") (by decide) (by decide) (by decide)⟩

lemma countOpen_append (s t : List AnomalyLog) (l : String) (ty : AnomalyType) :
    countOpen (s ++ t) l ty = countOpen s l ty + countOpen t l ty := by
  simp [countOpen, List.filter_append]

lemma countOpen_singleton (a : AnomalyLog) (l : String) (ty : AnomalyType) :
    countOpen [a] l ty =
      if a.lineItemId = l ∧ a.anomalyType = ty ∧ a.status = AnomalyStatus.unresolved
      then 1 else 0 := by
  unfold countOpen
  by_cases h : a.lineItemId = l ∧ a.anomalyType = ty ∧ a.status = AnomalyStatus.unresolved
  · rcases h with ⟨h1, h2, h3⟩
    rw [if_pos ⟨h1, h2, h3⟩]
    simp [List.filter_cons, h1, h2, h3]
  · rw [if_neg h]
    have hb : (a.lineItemId == l && a.anomalyType == ty &&
        a.status == AnomalyStatus.unresolved) = false := by
      rw [Bool.eq_false_iff]
      intro hc
      simp only [Bool.and_eq_true, beq_iff_eq] at hc
      exact h ⟨hc.1.1, hc.1.2, hc.2⟩
    simp [List.filter_cons, hb]

lemma createAnomaly_preserves (store : List AnomalyLog) (lid : String)
    (c : AnomalyCandidate) (h : AtMostOneOpen store) :
    AtMostOneOpen (createAnomalyIfNotExists store lid c) := by
  unfold createAnomalyIfNotExists
  split_ifs with hex
  · exact h
  · intro l ty
    rw [countOpen_append, countOpen_singleton]
    by_cases hl : l = lid ∧ ty = c.anomalyType
    · rcases hl with ⟨rfl, rfl⟩
      have h0 : countOpen store l c.anomalyType = 0 := by
        unfold countOpen
        rw [List.length_eq_zero, List.filter_eq_nil_iff]
        intro a ha
        intro hpa
        exact hex (List.any_eq_true.mpr ⟨a, ha, hpa⟩)
      rw [h0, if_pos ⟨rfl, rfl, rfl⟩]
    · rw [if_neg ?hcond]
      case hcond =>
        intro hc
        exact hl ⟨hc.1.symm, hc.2.1.symm⟩
      have := h l ty
      omega

lemma foldl_create_preserves (lid : String) :
    ∀ (cands : List AnomalyCandidate) (store : List AnomalyLog),
      AtMostOneOpen store →
      AtMostOneOpen (cands.foldl (fun s c => createAnomalyIfNotExists s lid c) store) := by
  intro cands
  induction cands with
  | nil => intro store h; exact h
  | cons c rest ih =>
      intro store h
      rw [List.foldl_cons]
      exact ih _ (createAnomaly_preserves store lid c h)

lemma lines_fold_preserves :
    ∀ (ps : List (LineItem × LineItemUsage)) (f : LineItem × LineItemUsage →
      List AnomalyCandidate) (store : List AnomalyLog),
      AtMostOneOpen store →
      AtMostOneOpen (ps.foldl
        (fun s p => (f p).foldl
          (fun s' c => createAnomalyIfNotExists s' p.1.lineItemId c) s) store) := by
  intro ps
  induction ps with
  | nil => intro f store h; exact h
  | cons p rest ih =>
      intro f store h
      rw [List.foldl_cons]
      exact ih f _ (foldl_create_preserves p.1.lineItemId (f p) store h)

lemma detectorRun_preserves (st : DetState) (now : ℤ)
    (h : AtMostOneOpen st.anomalies) : AtMostOneOpen (detectorRun st now).anomalies := by
  simp only [detectorRun]
  exact lines_fold_preserves (activeLinesWithUsage st now)
    (fun p => lineCandidates p.1 p.2 (recentWindow st.logs p.1.equipmentId now))
    st.anomalies h

/-- Claim C1: each candidate is check-then-created as one atomic step
(findFirst UNRESOLVED, then create only if absent), and this preserves the
invariant that every (line, type) pair has at most one UNRESOLVED anomaly; hence
after any number of detector runs from a store satisfying the invariant, at most
one UNRESOLVED record per (line, type) exists. -/
theorem detector_at_most_one_open (times : List ℤ) (st : DetState)
    (h : AtMostOneOpen st.anomalies) :
    AtMostOneOpen ((times.foldl detectorRun st).anomalies) := by
  induction times generalizing st with
  | nil => exact h
  | cons t rest ih =>
      rw [List.foldl_cons]
      exact ih (detectorRun st t) (detectorRun_preserves st t h)

/-- Claim C1 witness: three consecutive detector runs from the empty store on a
line whose usage violates the working-to-idle threshold leave at most one
UNRESOLVED anomaly of each type. -/
theorem c1_witness :
    AtMostOneOpen emptyDet.anomalies ∧
    AtMostOneOpen (([0, 1, 2] : List ℤ).foldl detectorRun emptyDet).anomalies :=
  have h0 : AtMostOneOpen emptyDet.anomalies := fun l t => by simp [emptyDet, countOpen]
  ⟨h0, detector_at_most_one_open [0, 1, 2] emptyDet h0⟩

lemma hasAdjacentDrop_cons (x : RawEventLog) (xs : List RawEventLog) :
    HasAdjacentDrop (x :: xs) ↔
      (∃ b, xs[0]? = some b ∧ fuelLevelOf x.value - fuelLevelOf b.value > 15) ∨
        HasAdjacentDrop xs := by
  constructor
  · rintro ⟨n, a, b, ha, hb, hd⟩
    cases n with
    | zero =>
        left
        simp only [List.getElem?_cons_zero, Option.some.injEq] at ha
        simp only [List.getElem?_cons_succ] at hb
        subst ha
        exact ⟨b, hb, hd⟩
    | succ m =>
        right
        simp only [List.getElem?_cons_succ] at ha hb
        exact ⟨m, a, b, ha, hb, hd⟩
  · rintro (⟨b, hb, hd⟩ | ⟨n, a, b, ha, hb, hd⟩)
    · exact ⟨0, x, b, by simp, by simpa using hb, hd⟩
    · exact ⟨n + 1, a, b, by simpa using ha, by simpa using hb, hd⟩

lemma not_hasAdjacentDrop_short (x : List RawEventLog) (h : x.length ≤ 1) :
    ¬ HasAdjacentDrop x := by
  rintro ⟨n, a, b, _, hb, _⟩
  obtain ⟨hlt, -⟩ := List.getElem?_eq_some_iff.mp hb
  omega

lemma firstFuelDropPair_some_iff :
    ∀ (l : List RawEventLog), (∃ p, firstFuelDropPair l = some p) ↔ HasAdjacentDrop l := by
  intro l
  induction l with
  | nil =>
      simp [firstFuelDropPair]
      exact not_hasAdjacentDrop_short [] (by simp)
  | cons a t ih =>
      cases t with
      | nil =>
          simp [firstFuelDropPair]
          exact not_hasAdjacentDrop_short [a] (by simp)
      | cons b rest =>
          rw [hasAdjacentDrop_cons]
          simp only [firstFuelDropPair]
          split_ifs with hd
          · constructor
            · intro _
              exact Or.inl ⟨b, by simp, hd⟩
            · intro _
              exact ⟨_, rfl⟩
          · rw [← ih]
            constructor
            · intro h
              exact Or.inr h
            · rintro (⟨b', hb', hd'⟩ | h)
              · simp only [List.getElem?_cons_zero, Option.some.injEq] at hb'
                subst hb'
                exact absurd hd' hd
              · exact h

lemma firstFuelDropPair_spec :
    ∀ (l : List RawEventLog) (p : ℚ × ℚ), firstFuelDropPair l = some p →
      ∃ n a b, l[n]? = some a ∧ l[n + 1]? = some b ∧
        fuelLevelOf a.value - fuelLevelOf b.value > 15 ∧
        p = (fuelLevelOf a.value, fuelLevelOf b.value) := by
  intro l
  induction l with
  | nil => intro p hp; simp [firstFuelDropPair] at hp
  | cons a t ih =>
      cases t with
      | nil => intro p hp; simp [firstFuelDropPair] at hp
      | cons b rest =>
          intro p hp
          simp only [firstFuelDropPair] at hp
          split_ifs at hp with hd
          · rcases Option.some.injEq _ _ |>.mp hp.symm with rfl
            exact ⟨0, a, b, by simp, by simp, hd, rfl⟩
          · rcases ih p hp with ⟨n, a', b', ha', hb', hd', hpv⟩
            exact ⟨n + 1, a', b', by simpa using ha', by simpa using hb', hd', hpv⟩

lemma mem_usageCandidates_type {u : LineItemUsage} {c : AnomalyCandidate}
    (h : c ∈ usageCandidates u) :
    c.anomalyType = AnomalyType.poorWorkingToIdle ∨
    c.anomalyType = AnomalyType.highFuelBurnRate ∨
    c.anomalyType = AnomalyType.slowCycleTime ∨
    c.anomalyType = AnomalyType.missedMaintenanceWindow := by
  simp only [usageCandidates, List.mem_append] at h
  rcases h with ((h | h) | h) | h <;> split_ifs at h <;> simp at h <;> subst h <;> simp

lemma mem_geofenceCandidate_type {li : LineItem} {recent : List RawEventLog}
    {c : AnomalyCandidate} (h : c ∈ geofenceCandidate li recent) :
    c.anomalyType = AnomalyType.geofenceBreach := by
  unfold geofenceCandidate at h
  cases hf : recent.find? (fun l => l.value.eventType == EventType.locationUpdateTy) with
  | none => simp only [hf] at h; exact absurd h (List.not_mem_nil c)
  | some l =>
      simp only [hf] at h
      cases hv : locOf l.value with
      | none => simp only [hv] at h; exact absurd h (List.not_mem_nil c)
      | some p =>
          simp only [hv] at h
          split_ifs at h
          · rcases List.mem_singleton.mp h with rfl; rfl
          · cases h

lemma mem_afterHoursCandidate_type {recent : List RawEventLog}
    {c : AnomalyCandidate} (h : c ∈ afterHoursCandidate recent) :
    c.anomalyType = AnomalyType.afterHoursOperation := by
  unfold afterHoursCandidate at h
  cases hf : recent.find? isAfterHoursLog with
  | none => rw [hf] at h; cases h
  | some l =>
      rw [hf] at h
      rcases List.mem_singleton.mp h with rfl
      rfl

lemma mem_highTempCandidate_type {recent : List RawEventLog}
    {c : AnomalyCandidate} (h : c ∈ highTempCandidate recent) :
    c.anomalyType = AnomalyType.highEngineTemp := by
  unfold highTempCandidate at h
  cases hf : recent.find? (fun l =>
      l.value.eventType == EventType.engineTempTy && decide (engineTempOf l.value > 102)) with
  | none => rw [hf] at h; cases h
  | some l =>
      rw [hf] at h
      rcases List.mem_singleton.mp h with rfl
      rfl

lemma mem_diagCandidates_type {recent : List RawEventLog}
    {c : AnomalyCandidate} (h : c ∈ diagCandidates recent) :
    c.anomalyType = AnomalyType.frequentDiagnosticErrors := by
  unfold diagCandidates at h
  rcases List.mem_map.mp h with ⟨code, _, rfl⟩
  rfl

lemma mem_fuelDropCandidate_iff {recent : List RawEventLog} {c : AnomalyCandidate} :
    c ∈ fuelDropCandidate recent ↔
      ∃ p, firstFuelDropPair (sortedFuelLogs recent) = some p ∧
        c = { anomalyType := AnomalyType.suddenFuelDrop, severity := AnomalySeverity.high,
              details := AnomalyDetails.fuelDropDetails p.1 p.2 } := by
  unfold fuelDropCandidate
  cases hf : firstFuelDropPair (sortedFuelLogs recent) with
  | none => simp
  | some p => simp

lemma fuelDrop_mem_lineCandidates {li : LineItem} {u : LineItemUsage}
    {recent : List RawEventLog} {c : AnomalyCandidate}
    (hc : c ∈ fuelDropCandidate recent) : c ∈ lineCandidates li u recent := by
  have hne : recent.isEmpty = false := by
    rcases mem_fuelDropCandidate_iff.mp hc with ⟨p, hp, rfl⟩
    have h2 : 2 ≤ (sortedFuelLogs recent).length := by
      rcases firstFuelDropPair_spec _ p hp with ⟨n, a, b, _, hb, _, _⟩
      obtain ⟨hlt, -⟩ := List.getElem?_eq_some_iff.mp hb
      omega
    have : sortedFuelLogs recent ≠ [] := by
      intro hnil
      rw [hnil] at h2
      simp at h2
    rcases List.exists_mem_of_ne_nil _ this with ⟨x, hx⟩
    have hx' : x ∈ recent := by
      have := List.mem_mergeSort.mp hx
      exact (List.mem_filter.mp this).1
    rcases recent with _ | ⟨y, ys⟩
    · cases hx'
    · rfl
  unfold lineCandidates
  rw [hne]
  simp only [Bool.false_eq_true, if_false, eventCandidates]
  refine List.mem_append_right _ ?_
  refine List.mem_append_left _ ?_
  refine List.mem_append_left _ ?_
  refine List.mem_append_right _ ?_
  exact hc

lemma mem_lineCandidates_fuel_inv {li : LineItem} {u : LineItemUsage}
    {recent : List RawEventLog} {c : AnomalyCandidate}
    (h : c ∈ lineCandidates li u recent)
    (ht : c.anomalyType = AnomalyType.suddenFuelDrop) :
    c ∈ fuelDropCandidate recent := by
  unfold lineCandidates at h
  rcases List.mem_append.mp h with hu | he
  · rcases mem_usageCandidates_type hu with h' | h' | h' | h' <;>
      rw [ht] at h' <;> cases h'
  · split_ifs at he with hemp
    · cases he
    · unfold eventCandidates at he
      rcases List.mem_append.mp he with he | hdg
      · rcases List.mem_append.mp he with he | hht
        · rcases List.mem_append.mp he with he | hfd
          · rcases List.mem_append.mp he with hgf | hah
            · rw [mem_geofenceCandidate_type hgf] at ht; cases ht
            · rw [mem_afterHoursCandidate_type hah] at ht; cases ht
          · exact hfd
        · rw [mem_highTempCandidate_type hht] at ht; cases ht
      · rw [mem_diagCandidates_type hdg] at ht; cases ht

lemma sortedFuelLogs_w8060 : sortedFuelLogs w8060 = w8060 := by
  unfold sortedFuelLogs
  rw [show w8060.filter (fun l => l.value.eventType == EventType.fuelLevelTy) = w8060
    by decide]
  exact List.mergeSort_of_sorted (by decide)

lemma sortedFuelLogs_w8070 : sortedFuelLogs w8070 = w8070 := by
  unfold sortedFuelLogs
  rw [show w8070.filter (fun l => l.value.eventType == EventType.fuelLevelTy) = w8070
    by decide]
  exact List.mergeSort_of_sorted (by decide)

lemma firstFuelDropPair_w8060 : firstFuelDropPair (sortedFuelLogs w8060) = some (80, 60) := by
  rw [sortedFuelLogs_w8060]
  show firstFuelDropPair
    [mkLog 1 ("A") 1000 (EventValue.fuelLevel 80),
     mkLog 2 ("A") 2000 (EventValue.fuelLevel 60)] = some (80, 60)
  norm_num [firstFuelDropPair, mkLog, fuelLevelOf]

lemma firstFuelDropPair_w8070 : firstFuelDropPair (sortedFuelLogs w8070) = none := by
  rw [sortedFuelLogs_w8070]
  show firstFuelDropPair
    [mkLog 1 ("A") 1000 (EventValue.fuelLevel 80),
     mkLog 2 ("A") 2000 (EventValue.fuelLevel 70)] = none
  norm_num [firstFuelDropPair, mkLog, fuelLevelOf]

/-- Claim C8: the SUDDEN_FUEL_DROP rule emits a HIGH candidate exactly when some
chronologically adjacent pair of FUEL_LEVEL readings in the sorted window drops
by strictly more than 15, with details taken from the first such pair; readings
80 then 60 trigger it with details from 80 to 60, while 80 then 70 do not. -/
theorem c8_sudden_fuel_drop :
    (∀ (li : LineItem) (u : LineItemUsage) (recent : List RawEventLog),
      (∃ d,
        ({ anomalyType := AnomalyType.suddenFuelDrop,
           severity := AnomalySeverity.high,
           details := d } : AnomalyCandidate) ∈ lineCandidates li u recent) ↔
        HasAdjacentDrop (sortedFuelLogs recent)) ∧
    (∀ (li : LineItem) (u : LineItemUsage) (recent : List RawEventLog)
      (c : AnomalyCandidate), c ∈ lineCandidates li u recent →
      c.anomalyType = AnomalyType.suddenFuelDrop →
      ∃ n a b, (sortedFuelLogs recent)[n]? = some a ∧
        (sortedFuelLogs recent)[n + 1]? = some b ∧
        fuelLevelOf a.value - fuelLevelOf b.value > 15 ∧
        c.details = AnomalyDetails.fuelDropDetails (fuelLevelOf a.value)
          (fuelLevelOf b.value)) ∧
    ({ anomalyType := AnomalyType.suddenFuelDrop,
       severity := AnomalySeverity.high,
       details := AnomalyDetails.fuelDropDetails 80 60 } : AnomalyCandidate) ∈
      lineCandidates liA (usageZero ("LA")) w8060 ∧
    (∀ c ∈ lineCandidates liA (usageZero ("LA")) w8070,
      c.anomalyType ≠ AnomalyType.suddenFuelDrop) := by
  refine ⟨?_, ?_, ?_, ?_⟩
  · intro li u recent
    constructor
    · rintro ⟨d, hd⟩
      have hc := mem_lineCandidates_fuel_inv hd rfl
      rcases mem_fuelDropCandidate_iff.mp hc with ⟨p, hp, -⟩
      exact (firstFuelDropPair_some_iff _).mp ⟨p, hp⟩
    · intro h
      rcases (firstFuelDropPair_some_iff _).mpr h with ⟨p, hp⟩
      refine ⟨AnomalyDetails.fuelDropDetails p.1 p.2, ?_⟩
      exact fuelDrop_mem_lineCandidates (mem_fuelDropCandidate_iff.mpr ⟨p, hp, rfl⟩)
  · intro li u recent c hc ht
    have hfd := mem_lineCandidates_fuel_inv hc ht
    rcases mem_fuelDropCandidate_iff.mp hfd with ⟨p, hp, rfl⟩
    rcases firstFuelDropPair_spec _ p hp with ⟨n, a, b, ha, hb, hd, hpv⟩
    exact ⟨n, a, b, ha, hb, hd, by rw [hpv]⟩
  · exact fuelDrop_mem_lineCandidates
      (mem_fuelDropCandidate_iff.mpr ⟨(80, 60), firstFuelDropPair_w8060, rfl⟩)
  · intro c hc ht
    have hfd := mem_lineCandidates_fuel_inv hc ht
    rcases mem_fuelDropCandidate_iff.mp hfd with ⟨p, hp, -⟩
    rw [firstFuelDropPair_w8070] at hp
    cases hp

lemma atan2_pos_x (y x : ℝ) (hx : 0 < x) : atan2 y x = Real.arctan (y / x) := by
  unfold atan2
  rw [if_pos hx]

lemma atan2_one_zero : atan2 1 0 = Real.pi / 2 := by
  unfold atan2
  norm_num

lemma arctan_le_self {t : ℝ} (ht : 0 ≤ t) : Real.arctan t ≤ t := by
  rcases eq_or_lt_of_le ht with h | h
  · rw [← h, Real.arctan_zero]
  · have hpos : 0 < Real.arctan t := by
      have := Real.arctan_strictMono h
      rwa [Real.arctan_zero] at this
    have hlt : Real.arctan t < Real.pi / 2 := Real.arctan_lt_pi_div_two t
    have := Real.lt_tan hpos hlt
    rw [Real.tan_arctan] at this
    exact this.le

lemma haversineDistanceKm_eq_arctan (lat long : ℚ)
    (h1 : haversineA lat long < 1) :
    haversineDistanceKm lat long =
      12742 * Real.arctan
        (Real.sqrt (haversineA lat long) / Real.sqrt (1 - haversineA lat long)) := by
  unfold haversineDistanceKm
  rw [atan2_pos_x]
  · ring
  · exact Real.sqrt_pos.mpr (by linarith)

lemma deg_cos_nonneg (x : ℝ) (h1 : 0 ≤ x) (h2 : x ≤ 90) :
    0 ≤ Real.cos (x * (Real.pi / 180)) := by
  have hpi := Real.pi_pos
  apply Real.cos_nonneg_of_neg_pi_div_two_le_of_le
  · nlinarith
  · nlinarith

lemma haversineA_far_lower :
    Real.sin (0.0784 * (Real.pi / 180) / 2) * Real.sin (0.0784 * (Real.pi / 180) / 2) ≤
      haversineA 13.05 79.60 := by
  unfold haversineA siteLat siteLong
  push_cast
  rw [show ((13.05 : ℝ) - 12.9716) = 0.0784 by norm_num,
    show ((79.60 : ℝ) - 79.1588) = 0.4412 by norm_num]
  have hc1 := deg_cos_nonneg 12.9716 (by norm_num) (by norm_num)
  have hc2 := deg_cos_nonneg 13.05 (by norm_num) (by norm_num)
  have h3 := mul_nonneg (mul_nonneg hc1 hc2)
    (mul_self_nonneg (Real.sin (0.4412 * (Real.pi / 180) / 2)))
  linarith

lemma haversineA_far_upper : haversineA 13.05 79.60 ≤ 1 / 2 := by
  unfold haversineA siteLat siteLong
  push_cast
  rw [show ((13.05 : ℝ) - 12.9716) = 0.0784 by norm_num,
    show ((79.60 : ℝ) - 79.1588) = 0.4412 by norm_num]
  have hpi3 := Real.pi_gt_three
  have hpi4 := Real.pi_lt_d2
  have hs1 : Real.sin (0.0784 * (Real.pi / 180) / 2) * Real.sin (0.0784 * (Real.pi / 180) / 2) ≤
      (0.0784 * (Real.pi / 180) / 2) * (0.0784 * (Real.pi / 180) / 2) := by
    have := @Real.sin_sq_le_sq (0.0784 * (Real.pi / 180) / 2)
    nlinarith [this]
  have hs2 : Real.sin (0.4412 * (Real.pi / 180) / 2) * Real.sin (0.4412 * (Real.pi / 180) / 2) ≤
      (0.4412 * (Real.pi / 180) / 2) * (0.4412 * (Real.pi / 180) / 2) := by
    have := @Real.sin_sq_le_sq (0.4412 * (Real.pi / 180) / 2)
    nlinarith [this]
  have hc1 := deg_cos_nonneg 12.9716 (by norm_num) (by norm_num)
  have hc2 := deg_cos_nonneg 13.05 (by norm_num) (by norm_num)
  have hc1' := Real.cos_le_one (12.9716 * (Real.pi / 180))
  have hc2' := Real.cos_le_one (13.05 * (Real.pi / 180))
  have hss : 0 ≤ Real.sin (0.4412 * (Real.pi / 180) / 2) * Real.sin (0.4412 * (Real.pi / 180) / 2) :=
    mul_self_nonneg _
  have hcc : Real.cos (12.9716 * (Real.pi / 180)) * Real.cos (13.05 * (Real.pi / 180)) ≤ 1 := by
    nlinarith
  have hcc0 : 0 ≤ Real.cos (12.9716 * (Real.pi / 180)) * Real.cos (13.05 * (Real.pi / 180)) :=
    mul_nonneg hc1 hc2
  have hterm : Real.cos (12.9716 * (Real.pi / 180)) * Real.cos (13.05 * (Real.pi / 180)) *
      (Real.sin (0.4412 * (Real.pi / 180) / 2) * Real.sin (0.4412 * (Real.pi / 180) / 2)) ≤
      Real.sin (0.4412 * (Real.pi / 180) / 2) * Real.sin (0.4412 * (Real.pi / 180) / 2) := by
    nlinarith [hss, hcc, hcc0]
  nlinarith [hs1, hs2, hterm]

lemma far_distance : ((siteRadiusKm : ℚ) : ℝ) < haversineDistanceKm 13.05 79.60 := by
  have hpi := Real.pi_pos
  have hA0 : 0 ≤ haversineA 13.05 79.60 :=
    le_trans (mul_self_nonneg _) haversineA_far_lower
  have hA1 : haversineA 13.05 79.60 < 1 := lt_of_le_of_lt haversineA_far_upper (by norm_num)
  rw [haversineDistanceKm_eq_arctan 13.05 79.60 hA1]
  have hθ0 : (0 : ℝ) < 0.0784 * (Real.pi / 180) / 2 := by nlinarith
  have hθ2 : 0.0784 * (Real.pi / 180) / 2 < Real.pi / 2 := by nlinarith
  have hθpi : 0.0784 * (Real.pi / 180) / 2 ≤ Real.pi := by nlinarith
  have hsin0 : 0 ≤ Real.sin (0.0784 * (Real.pi / 180) / 2) :=
    Real.sin_nonneg_of_nonneg_of_le_pi hθ0.le hθpi
  have hcos0 : 0 < Real.cos (0.0784 * (Real.pi / 180) / 2) :=
    Real.cos_pos_of_mem_Ioo ⟨by nlinarith, hθ2⟩
  have hsqA : Real.sin (0.0784 * (Real.pi / 180) / 2) ≤
      Real.sqrt (haversineA 13.05 79.60) := by
    have h1 := Real.sqrt_le_sqrt haversineA_far_lower
    rwa [Real.sqrt_mul_self hsin0] at h1
  have hsq1A : Real.sqrt (1 - haversineA 13.05 79.60) ≤
      Real.cos (0.0784 * (Real.pi / 180) / 2) := by
    have hid := Real.sin_sq_add_cos_sq (0.0784 * (Real.pi / 180) / 2)
    have h2 : 1 - haversineA 13.05 79.60 ≤
        Real.cos (0.0784 * (Real.pi / 180) / 2) * Real.cos (0.0784 * (Real.pi / 180) / 2) := by
      nlinarith [haversineA_far_lower]
    have h3 := Real.sqrt_le_sqrt h2
    rwa [Real.sqrt_mul_self hcos0.le] at h3
  have hsq1A0 : 0 < Real.sqrt (1 - haversineA 13.05 79.60) :=
    Real.sqrt_pos.mpr (by linarith [haversineA_far_upper])
  have hdiv : Real.sin (0.0784 * (Real.pi / 180) / 2) / Real.cos (0.0784 * (Real.pi / 180) / 2) ≤
      Real.sqrt (haversineA 13.05 79.60) / Real.sqrt (1 - haversineA 13.05 79.60) :=
    div_le_div₀ (Real.sqrt_nonneg _) hsqA hsq1A0 hsq1A
  have harctan : 0.0784 * (Real.pi / 180) / 2 ≤
      Real.arctan (Real.sqrt (haversineA 13.05 79.60) /
        Real.sqrt (1 - haversineA 13.05 79.60)) := by
    have h4 : Real.arctan (Real.sin (0.0784 * (Real.pi / 180) / 2) /
        Real.cos (0.0784 * (Real.pi / 180) / 2)) = 0.0784 * (Real.pi / 180) / 2 := by
      rw [← Real.tan_eq_sin_div_cos]
      exact Real.arctan_tan (by nlinarith) hθ2
    calc 0.0784 * (Real.pi / 180) / 2 = _ := h4.symm
      _ ≤ _ := Real.arctan_strictMono.monotone hdiv
  have hrad : ((siteRadiusKm : ℚ) : ℝ) = 5 := by norm_num [siteRadiusKm]
  rw [hrad]
  have hpi314 := Real.pi_gt_d2
  nlinarith [harctan]

lemma haversineA_near_nonneg : 0 ≤ haversineA 12.975 79.160 := by
  unfold haversineA siteLat siteLong
  have hc1 := deg_cos_nonneg 12.9716 (by norm_num) (by norm_num)
  have hc2 : 0 ≤ Real.cos (((12.975 : ℚ) : ℝ) * (Real.pi / 180)) := by
    push_cast
    exact deg_cos_nonneg 12.975 (by norm_num) (by norm_num)
  push_cast at hc2 ⊢
  have h3 := mul_nonneg (mul_nonneg hc1 hc2)
    (mul_self_nonneg (Real.sin ((79.160 - 79.1588) * (Real.pi / 180) / 2)))
  nlinarith [mul_self_nonneg (Real.sin ((12.975 - 12.9716) * (Real.pi / 180) / 2))]

lemma haversineA_near_upper : haversineA 12.975 79.160 ≤ 0.0000332 * 0.0000332 := by
  unfold haversineA siteLat siteLong
  push_cast
  rw [show ((12.975 : ℝ) - 12.9716) = 0.0034 by norm_num,
    show ((79.160 : ℝ) - 79.1588) = 0.0012 by norm_num]
  have hpi3 := Real.pi_gt_three
  have hpi4 := Real.pi_lt_d2
  have hs1 : Real.sin (0.0034 * (Real.pi / 180) / 2) * Real.sin (0.0034 * (Real.pi / 180) / 2) ≤
      (0.0034 * (Real.pi / 180) / 2) * (0.0034 * (Real.pi / 180) / 2) := by
    have := @Real.sin_sq_le_sq (0.0034 * (Real.pi / 180) / 2)
    nlinarith [this]
  have hs2 : Real.sin (0.0012 * (Real.pi / 180) / 2) * Real.sin (0.0012 * (Real.pi / 180) / 2) ≤
      (0.0012 * (Real.pi / 180) / 2) * (0.0012 * (Real.pi / 180) / 2) := by
    have := @Real.sin_sq_le_sq (0.0012 * (Real.pi / 180) / 2)
    nlinarith [this]
  have hc1 := deg_cos_nonneg 12.9716 (by norm_num) (by norm_num)
  have hc2 := deg_cos_nonneg 12.975 (by norm_num) (by norm_num)
  have hc1' := Real.cos_le_one (12.9716 * (Real.pi / 180))
  have hc2' := Real.cos_le_one (12.975 * (Real.pi / 180))
  have hss : 0 ≤ Real.sin (0.0012 * (Real.pi / 180) / 2) * Real.sin (0.0012 * (Real.pi / 180) / 2) :=
    mul_self_nonneg _
  have hcc : Real.cos (12.9716 * (Real.pi / 180)) * Real.cos (12.975 * (Real.pi / 180)) ≤ 1 := by
    nlinarith
  have hcc0 : 0 ≤ Real.cos (12.9716 * (Real.pi / 180)) * Real.cos (12.975 * (Real.pi / 180)) :=
    mul_nonneg hc1 hc2
  have hterm : Real.cos (12.9716 * (Real.pi / 180)) * Real.cos (12.975 * (Real.pi / 180)) *
      (Real.sin (0.0012 * (Real.pi / 180) / 2) * Real.sin (0.0012 * (Real.pi / 180) / 2)) ≤
      Real.sin (0.0012 * (Real.pi / 180) / 2) * Real.sin (0.0012 * (Real.pi / 180) / 2) := by
    nlinarith [hss, hcc, hcc0]
  nlinarith [hs1, hs2, hterm]

lemma near_distance_not : ¬ (((siteRadiusKm : ℚ) : ℝ) < haversineDistanceKm 12.975 79.160) := by
  have hA0 := haversineA_near_nonneg
  have hupper := haversineA_near_upper
  have hA1 : haversineA 12.975 79.160 < 1 := by nlinarith
  rw [haversineDistanceKm_eq_arctan 12.975 79.160 hA1]
  have hsqA : Real.sqrt (haversineA 12.975 79.160) ≤ 0.0000332 := by
    have h1 := Real.sqrt_le_sqrt hupper
    rwa [Real.sqrt_mul_self (by norm_num : (0:ℝ) ≤ 0.0000332)] at h1
  have hsq1A : (0.7 : ℝ) ≤ Real.sqrt (1 - haversineA 12.975 79.160) := by
    have h2 : (0.7 : ℝ) * 0.7 ≤ 1 - haversineA 12.975 79.160 := by nlinarith
    have h3 := Real.sqrt_le_sqrt h2
    rwa [Real.sqrt_mul_self (by norm_num : (0:ℝ) ≤ 0.7)] at h3
  have hdiv : Real.sqrt (haversineA 12.975 79.160) /
      Real.sqrt (1 - haversineA 12.975 79.160) ≤ 0.0000332 / 0.7 :=
    div_le_div₀ (by norm_num) hsqA (by norm_num) hsq1A
  have htpos : 0 ≤ Real.sqrt (haversineA 12.975 79.160) /
      Real.sqrt (1 - haversineA 12.975 79.160) :=
    div_nonneg (Real.sqrt_nonneg _) (Real.sqrt_nonneg _)
  have harc := arctan_le_self htpos
  have hrad : ((siteRadiusKm : ℚ) : ℝ) = 5 := by norm_num [siteRadiusKm]
  rw [hrad]
  push_neg
  calc 12742 * Real.arctan (Real.sqrt (haversineA 12.975 79.160) /
        Real.sqrt (1 - haversineA 12.975 79.160)) ≤
      12742 * (0.0000332 / 0.7) := by nlinarith [harc, hdiv]
    _ ≤ 5 := by norm_num

lemma haversineA_antipode : haversineA 192.9716 79.1588 = 1 := by
  unfold haversineA siteLat siteLong
  push_cast
  rw [show ((192.9716 : ℝ) - 12.9716) = 180 by norm_num,
    show ((79.1588 : ℝ) - 79.1588) = 0 by norm_num,
    show (180 : ℝ) * (Real.pi / 180) / 2 = Real.pi / 2 by ring,
    show (0 : ℝ) * (Real.pi / 180) / 2 = 0 by ring]
  rw [Real.sin_pi_div_two, Real.sin_zero]
  ring

lemma antipode_distance : ((siteRadiusKm : ℚ) : ℝ) < haversineDistanceKm 192.9716 79.1588 := by
  unfold haversineDistanceKm
  rw [haversineA_antipode]
  rw [show (1 : ℝ) - 1 = 0 by ring, Real.sqrt_one, Real.sqrt_zero, atan2_one_zero]
  have := Real.pi_gt_three
  have hrad : ((siteRadiusKm : ℚ) : ℝ) = 5 := by norm_num [siteRadiusKm]
  rw [hrad]
  nlinarith

lemma haversineA_center : haversineA 12.9716 79.1588 = 0 := by
  unfold haversineA siteLat siteLong
  push_cast
  rw [show ((12.9716 : ℝ) - 12.9716) = 0 by norm_num,
    show ((79.1588 : ℝ) - 79.1588) = 0 by norm_num,
    show (0 : ℝ) * (Real.pi / 180) / 2 = 0 by ring]
  rw [Real.sin_zero]
  ring

lemma center_distance_not :
    ¬ (((siteRadiusKm : ℚ) : ℝ) < haversineDistanceKm 12.9716 79.1588) := by
  unfold haversineDistanceKm
  rw [haversineA_center]
  rw [show (1 : ℝ) - 0 = 1 by ring, Real.sqrt_one, Real.sqrt_zero,
    atan2_pos_x 0 1 (by norm_num)]
  have hrad : ((siteRadiusKm : ℚ) : ℝ) = 5 := by norm_num [siteRadiusKm]
  rw [hrad]
  norm_num [Real.arctan_zero]

lemma locOf_eq_some {v : EventValue} {p : ℚ × ℚ} (h : locOf v = some p) :
    v = EventValue.locationUpdate p.1 p.2 := by
  cases v with
  | locationUpdate a b =>
      simp only [locOf, Option.some.injEq] at h
      rw [← h]
  | _ => simp [locOf] at h

lemma geofence_mem_lineCandidates {li : LineItem} {u : LineItemUsage}
    {recent : List RawEventLog} {c : AnomalyCandidate}
    (hc : c ∈ geofenceCandidate li recent) : c ∈ lineCandidates li u recent := by
  have hne : recent.isEmpty = false := by
    unfold geofenceCandidate at hc
    cases hf : recent.find? (fun l => l.value.eventType == EventType.locationUpdateTy) with
    | none => simp only [hf] at hc; exact absurd hc (List.not_mem_nil c)
    | some l =>
        have hl := List.mem_of_find?_eq_some hf
        rcases recent with _ | ⟨y, ys⟩
        · cases hl
        · rfl
  unfold lineCandidates
  rw [hne]
  simp only [Bool.false_eq_true, if_false, eventCandidates]
  refine List.mem_append_right _ ?_
  refine List.mem_append_left _ ?_
  refine List.mem_append_left _ ?_
  refine List.mem_append_left _ ?_
  refine List.mem_append_left _ ?_
  exact hc

lemma mem_lineCandidates_geofence_inv {li : LineItem} {u : LineItemUsage}
    {recent : List RawEventLog} {c : AnomalyCandidate}
    (h : c ∈ lineCandidates li u recent)
    (ht : c.anomalyType = AnomalyType.geofenceBreach) :
    c ∈ geofenceCandidate li recent := by
  unfold lineCandidates at h
  rcases List.mem_append.mp h with hu | he
  · rcases mem_usageCandidates_type hu with h' | h' | h' | h' <;>
      rw [ht] at h' <;> cases h'
  · split_ifs at he with hemp
    · cases he
    · unfold eventCandidates at he
      rcases List.mem_append.mp he with he | hdg
      · rcases List.mem_append.mp he with he | hht
        · rcases List.mem_append.mp he with he | hfd
          · rcases List.mem_append.mp he with hgf | hah
            · exact hgf
            · rw [mem_afterHoursCandidate_type hah] at ht; cases ht
          · rcases mem_fuelDropCandidate_iff.mp hfd with ⟨p, -, rfl⟩; cases ht
        · rw [mem_highTempCandidate_type hht] at ht; cases ht
      · rw [mem_diagCandidates_type hdg] at ht; cases ht

lemma geofence_fires_iff (li : LineItem) (u : LineItemUsage)
    (recent : List RawEventLog) :
    (∃ d,
      ({ anomalyType := AnomalyType.geofenceBreach,
         severity := AnomalySeverity.high,
         details := d } : AnomalyCandidate) ∈ lineCandidates li u recent) ↔
      ∃ l lat long,
        recent.find? (fun x => x.value.eventType == EventType.locationUpdateTy) = some l ∧
        l.value = EventValue.locationUpdate lat long ∧
        ((siteRadiusKm : ℚ) : ℝ) < haversineDistanceKm lat long := by
  constructor
  · rintro ⟨d, hd⟩
    have hg := mem_lineCandidates_geofence_inv hd rfl
    unfold geofenceCandidate at hg
    cases hf : recent.find? (fun l => l.value.eventType == EventType.locationUpdateTy) with
    | none => simp only [hf] at hg; exact absurd hg (List.not_mem_nil _)
    | some l =>
        simp only [hf] at hg
        cases hv : locOf l.value with
        | none => simp only [hv] at hg; exact absurd hg (List.not_mem_nil _)
        | some p =>
            simp only [hv] at hg
            split_ifs at hg with hcond
            · exact ⟨l, p.1, p.2, rfl, locOf_eq_some hv, hcond⟩
            · exact absurd hg (List.not_mem_nil _)
  · rintro ⟨l, lat, long, hf, hval, hd⟩
    refine ⟨AnomalyDetails.geofenceDetails lat long li.contractSiteId, ?_⟩
    apply geofence_mem_lineCandidates
    unfold geofenceCandidate
    rw [hf]
    simp only [hval, locOf]
    rw [if_pos hd]
    exact List.mem_singleton_self _

lemma geofenceCandidate_wNear : geofenceCandidate liA wNear = [] := by
  unfold geofenceCandidate
  rw [show wNear.find? (fun l => l.value.eventType == EventType.locationUpdateTy) =
    some (mkLog 1 ("A") 1000 (EventValue.locationUpdate 12.975 79.160)) by rfl]
  simp only [mkLog, locOf]
  rw [if_neg near_distance_not]

/-- Claim C7 (amended): the GEOFENCE_BREACH rule emits a HIGH candidate exactly
when the *first* LOCATION_UPDATE record of the window in store order — the
result of recentLogs.find, not the most recent one — lies at haversine distance
greater than 5 km from the site center (12.9716, 79.1588); in particular a
reading at (13.05, 79.60) triggers it and one at (12.975, 79.160) does not. -/
theorem c7_first_location_geofence :
    (∀ (li : LineItem) (u : LineItemUsage) (recent : List RawEventLog),
      (∃ d,
        ({ anomalyType := AnomalyType.geofenceBreach,
           severity := AnomalySeverity.high,
           details := d } : AnomalyCandidate) ∈ lineCandidates li u recent) ↔
        ∃ l lat long,
          recent.find? (fun x => x.value.eventType == EventType.locationUpdateTy) = some l ∧
          l.value = EventValue.locationUpdate lat long ∧
          ((siteRadiusKm : ℚ) : ℝ) < haversineDistanceKm lat long) ∧
    (∃ d,
      ({ anomalyType := AnomalyType.geofenceBreach,
         severity := AnomalySeverity.high,
         details := d } : AnomalyCandidate) ∈
        lineCandidates liA (usageZero ("LA")) wFar) ∧
    (∀ c ∈ lineCandidates liA (usageZero ("LA")) wNear,
      c.anomalyType ≠ AnomalyType.geofenceBreach) := by
  refine ⟨geofence_fires_iff, ?_, ?_⟩
  · refine (geofence_fires_iff liA (usageZero ("LA")) wFar).mpr ?_
    exact ⟨mkLog 1 ("A") 1000 (EventValue.locationUpdate 13.05 79.60), 13.05, 79.60,
      by rfl, rfl, far_distance⟩
  · intro c hc ht
    have hg := mem_lineCandidates_geofence_inv hc ht
    rw [geofenceCandidate_wNear] at hg
    exact absurd hg (List.not_mem_nil c)

/-- Claim C7 counterexample: on a window whose first location log is far from
the site while its most recent location log is exactly at the site center, the
code emits a GEOFENCE_BREACH candidate although the spec's most-recent-location
predicate does not hold. -/
theorem c7_counterexample :
    (∃ d,
      ({ anomalyType := AnomalyType.geofenceBreach,
         severity := AnomalySeverity.high,
         details := d } : AnomalyCandidate) ∈
        lineCandidates liA (usageZero ("LA")) wMix) ∧
    ¬ SpecGeofenceFires wMix := by
  constructor
  · refine (geofence_fires_iff liA (usageZero ("LA")) wMix).mpr ?_
    exact ⟨mkLog 1 ("A") 1000 (EventValue.locationUpdate 192.9716 79.1588),
      192.9716, 79.1588, by rfl, rfl, antipode_distance⟩
  · rintro ⟨l, lat, long, hml, hval, hdist⟩
    rw [show mostRecentLocationLog wMix =
      some (mkLog 2 ("A") 2000 (EventValue.locationUpdate 12.9716 79.1588)) by rfl] at hml
    rcases Option.some.injEq _ _ |>.mp hml.symm with rfl
    simp only [mkLog, EventValue.locationUpdate.injEq] at hval
    rcases hval with ⟨rfl, rfl⟩
    exact center_distance_not hdist
